import Mathlib

/-!
# Trend aggregation and ranking pipeline

A shallow embedding of `src/services/trendingFetcher.js` (class `TrendingFetcher`), of
`retryWrapper` and `validateEnvVars` from `src/utils/helpers.js`, of the text optimizer of
`src/services/twitterPublisher.js`, and of the constructors and the entry point that
`api/cron.js` runs, followed by theorems about them.

Modelling conventions.

* A JavaScript string is `JSString`, the list of its UTF-16 code units: `length`, `slice`,
  `substring`, `lastIndexOf`, `includes` and the regular expressions all count and compare
  code units. `utf16` gives the code units of a literal.
* `toLowerCase` is the default case conversion of Unicode: the code units are read as code
  points, every code point is replaced by its lower-case mapping, and the result is written
  back as code units. ASCII, the surrogates and the capital sigma (whose mapping depends on
  its neighbours) are handled as the standard fixes them; the mappings of all other code
  points come from a `CaseTable`, which is a parameter of the model, because they depend on
  the Unicode version of the engine. `unicodeCase` is the table of Unicode 14.
* JavaScript numbers are `JSNum`: an exact rational, or `none` for `NaN`.
* A `Date` is its time value in milliseconds, or `none` for an Invalid Date.
* Exceptions are the error side of `Except`; a `try`/`catch` is a `match` on the result.
* The network, the clock, the ranking service and `JSON.parse` are inputs of the model, and
  so are the process environment and the outcomes of content generation and publishing.
* A regular expression is modelled by the scan it performs; `\w` is the letters `a`-`z`
  and `A`-`Z`, the digits and the underscore.
-/

/-! ## JavaScript values -/

/-- A JavaScript number: an exact rational, or `none` for `NaN`. -/
abbrev JSNum := Option ℚ

/-- The JavaScript subtraction `a - b` on numbers; `NaN` is absorbing. -/
def jsSub (a b : JSNum) : JSNum :=
  match a, b with
  | some x, some y => some (x - y)
  | _, _ => none

/-- The JavaScript addition `a + b` on numbers; `NaN` is absorbing. -/
def jsAdd (a b : JSNum) : JSNum :=
  match a, b with
  | some x, some y => some (x + y)
  | _, _ => none

/-- The JavaScript division `a / n` by a non-zero constant `n`; `NaN` is absorbing. -/
def jsDivConst (a : JSNum) (n : ℚ) : JSNum :=
  match a with
  | some x => some (x / n)
  | none => none

/-- The time value of a `Date`: milliseconds since the epoch, or `none` for an Invalid Date. -/
abbrev JSDate := Option Int

/-- The number a `Date` converts to in an arithmetic expression. -/
def dateValue (d : JSDate) : JSNum :=
  match d with
  | some ms => some (ms : ℚ)
  | none => none

/-! ## JavaScript strings -/

/-- A JavaScript string: its UTF-16 code units, each below 65536, in order. -/
abbrev JSString := List Nat

/-- The code units of one code point: itself in the basic plane, a surrogate pair above. -/
def encodeCodePoint (c : Nat) : List Nat :=
  if c < 65536 then [c]
  else [55296 + (c - 65536) / 1024 % 1024, 56320 + (c - 65536) % 1024]

/-- The code units of a list of code points (`CodePointsToString`). -/
def codeUnits : List Nat → JSString
  | [] => []
  | c :: cs => encodeCodePoint c ++ codeUnits cs

/-- The code units of the characters of a literal. -/
def utf16L : List Char → JSString
  | [] => []
  | c :: cs => encodeCodePoint c.toNat ++ utf16L cs

/-- The JavaScript string that a literal denotes. -/
def utf16 (s : String) : JSString := utf16L s.data

/-- A leading surrogate, `0xD800` to `0xDBFF`. -/
def isHighSurrogate (u : Nat) : Bool := decide (55296 ≤ u) && decide (u ≤ 56319)

/-- A trailing surrogate, `0xDC00` to `0xDFFF`. -/
def isLowSurrogate (u : Nat) : Bool := decide (56320 ≤ u) && decide (u ≤ 57343)

/-- The code points of a string (`StringToCodePoints`): a leading surrogate followed by a
trailing one is one code point, every other code unit is a code point of its own. -/
def codePoints : JSString → List Nat
  | [] => []
  | [u] => [u]
  | u :: v :: rest =>
    if isHighSurrogate u && isLowSurrogate v then
      (65536 + (u - 55296) * 1024 + (v - 56320)) :: codePoints rest
    else u :: codePoints (v :: rest)

/-- The case data of a Unicode version that `toLowerCase` consults: the lower-case mapping
of the code points outside ASCII other than the surrogates and the capital sigma, and the
two properties that decide the form of a sigma. -/
structure CaseTable where
  lower : Nat → List Nat
  cased : Nat → Bool
  caseIgnorable : Nat → Bool

/-- Scanning from a sigma over the case-ignorable code points: is the first other code
point a cased one. -/
def nextCased (T : CaseTable) : List Nat → Bool
  | [] => false
  | c :: rest => if T.caseIgnorable c then nextCased T rest else T.cased c

/-- The condition `Final_Sigma`: a cased letter precedes, and none follows, case-ignorable
code points apart. `before` holds the preceding code points, nearest first. -/
def isFinalSigma (T : CaseTable) (before after : List Nat) : Bool :=
  nextCased T before && !nextCased T after

/-- The lower-case mapping of an ASCII code point: `A`-`Z` become `a`-`z`. -/
def lowerAscii (c : Nat) : Nat := if 65 ≤ c ∧ c ≤ 90 then c + 32 else c

/-- The lower-case mapping of the code point `c` standing between `before` (nearest
first) and `after`. -/
def lowerCodePoint (T : CaseTable) (before : List Nat) (c : Nat) (after : List Nat) :
    List Nat :=
  if c < 128 then [lowerAscii c]
  else if 55296 ≤ c ∧ c ≤ 57343 then [c]
  else if c = 931 then (if isFinalSigma T before after then [962] else [963])
  else T.lower c

/-- The lower-case mapping of the code points `cps` standing between `before` (nearest
first) and `after`. -/
def lowerCodePoints (T : CaseTable) : List Nat → List Nat → List Nat → List Nat
  | _, [], _ => []
  | before, c :: cps, after =>
    lowerCodePoint T before c (cps ++ after) ++ lowerCodePoints T (c :: before) cps after

/-- The method `String.prototype.toLowerCase`. -/
def toLowerCase (T : CaseTable) (s : JSString) : JSString :=
  codeUnits (lowerCodePoints T [] (codePoints s) [])

/-- Substring test on code units: does `k` occur in the first argument. -/
def includesL : List Nat → List Nat → Bool
  | [], k => k.isEmpty
  | c :: cs, k => k.isPrefixOf (c :: cs) || includesL cs k

/-- The method `String.prototype.includes`. -/
def includes (s k : JSString) : Bool := includesL s k

/-- The call `s.slice(0, n)`, and `s.substring(0, n)`. -/
def slice0 (s : JSString) (n : Nat) : JSString := s.take n

/-- The code units that `String.prototype.trim` removes (WhiteSpace and LineTerminator). -/
def isJSWhitespace (n : Nat) : Bool :=
  (decide (9 ≤ n) && decide (n ≤ 13)) || n == 32 || n == 160 || n == 5760
    || (decide (8192 ≤ n) && decide (n ≤ 8202))
    || n == 8232 || n == 8233 || n == 8239 || n == 8287 || n == 12288 || n == 65279

/-- The method `String.prototype.trim`. -/
def trim (s : JSString) : JSString :=
  ((s.dropWhile isJSWhitespace).reverse.dropWhile isJSWhitespace).reverse

/-- A string of ASCII code units only. -/
def AllAscii (k : JSString) : Prop := ∀ u ∈ k, u < 128

instance (k : JSString) : Decidable (AllAscii k) :=
  inferInstanceAs (Decidable (∀ u ∈ k, u < 128))

/-- The ASCII code unit at a place of a string, or `none` for any other code unit there. -/
def asciiOnly (u : Nat) : Option Nat := if u < 128 then some u else none

/-! ## The case table of Unicode 14 -/

/-- The simple lower-case mappings outside ASCII, as runs `(first, last, step, target)`:
the code point `first + i * step`, up to `last`, maps to `target + i * step`. -/
def unicodeLowerRuns : List (Nat × Nat × Nat × Nat) := [
  (192, 214, 1, 224), (216, 222, 1, 248), (256, 302, 2, 257), (306, 310, 2, 307),
  (313, 327, 2, 314), (330, 374, 2, 331), (376, 376, 1, 255), (377, 381, 2, 378),
  (385, 385, 1, 595), (386, 388, 2, 387), (390, 390, 1, 596), (391, 391, 1, 392),
  (393, 394, 1, 598), (395, 395, 1, 396), (398, 398, 1, 477), (399, 399, 1, 601),
  (400, 400, 1, 603), (401, 401, 1, 402), (403, 403, 1, 608), (404, 404, 1, 611),
  (406, 406, 1, 617), (407, 407, 1, 616), (408, 408, 1, 409), (412, 412, 1, 623),
  (413, 413, 1, 626), (415, 415, 1, 629), (416, 420, 2, 417), (422, 422, 1, 640),
  (423, 423, 1, 424), (425, 425, 1, 643), (428, 428, 1, 429), (430, 430, 1, 648),
  (431, 431, 1, 432), (433, 434, 1, 650), (435, 437, 2, 436), (439, 439, 1, 658),
  (440, 440, 1, 441), (444, 444, 1, 445), (452, 452, 1, 454), (453, 453, 1, 454),
  (455, 455, 1, 457), (456, 456, 1, 457), (458, 458, 1, 460), (459, 475, 2, 460),
  (478, 494, 2, 479), (497, 497, 1, 499), (498, 500, 2, 499), (502, 502, 1, 405),
  (503, 503, 1, 447), (504, 542, 2, 505), (544, 544, 1, 414), (546, 562, 2, 547),
  (570, 570, 1, 11365), (571, 571, 1, 572), (573, 573, 1, 410), (574, 574, 1, 11366),
  (577, 577, 1, 578), (579, 579, 1, 384), (580, 580, 1, 649), (581, 581, 1, 652),
  (582, 590, 2, 583), (880, 882, 2, 881), (886, 886, 1, 887), (895, 895, 1, 1011),
  (902, 902, 1, 940), (904, 906, 1, 941), (908, 908, 1, 972), (910, 911, 1, 973),
  (913, 929, 1, 945), (932, 939, 1, 964), (975, 975, 1, 983), (984, 1006, 2, 985),
  (1012, 1012, 1, 952), (1015, 1015, 1, 1016), (1017, 1017, 1, 1010), (1018, 1018, 1, 1019),
  (1021, 1023, 1, 891), (1024, 1039, 1, 1104), (1040, 1071, 1, 1072), (1120, 1152, 2, 1121),
  (1162, 1214, 2, 1163), (1216, 1216, 1, 1231), (1217, 1229, 2, 1218), (1232, 1326, 2, 1233),
  (1329, 1366, 1, 1377), (4256, 4293, 1, 11520), (4295, 4295, 1, 11559), (4301, 4301, 1, 11565),
  (5024, 5103, 1, 43888), (5104, 5109, 1, 5112), (7312, 7354, 1, 4304), (7357, 7359, 1, 4349),
  (7680, 7828, 2, 7681), (7838, 7838, 1, 223), (7840, 7934, 2, 7841), (7944, 7951, 1, 7936),
  (7960, 7965, 1, 7952), (7976, 7983, 1, 7968), (7992, 7999, 1, 7984), (8008, 8013, 1, 8000),
  (8025, 8031, 2, 8017), (8040, 8047, 1, 8032), (8072, 8079, 1, 8064), (8088, 8095, 1, 8080),
  (8104, 8111, 1, 8096), (8120, 8121, 1, 8112), (8122, 8123, 1, 8048), (8124, 8124, 1, 8115),
  (8136, 8139, 1, 8050), (8140, 8140, 1, 8131), (8152, 8153, 1, 8144), (8154, 8155, 1, 8054),
  (8168, 8169, 1, 8160), (8170, 8171, 1, 8058), (8172, 8172, 1, 8165), (8184, 8185, 1, 8056),
  (8186, 8187, 1, 8060), (8188, 8188, 1, 8179), (8486, 8486, 1, 969), (8490, 8490, 1, 107),
  (8491, 8491, 1, 229), (8498, 8498, 1, 8526), (8544, 8559, 1, 8560), (8579, 8579, 1, 8580),
  (9398, 9423, 1, 9424), (11264, 11311, 1, 11312), (11360, 11360, 1, 11361), (11362, 11362, 1, 619),
  (11363, 11363, 1, 7549), (11364, 11364, 1, 637), (11367, 11371, 2, 11368), (11373, 11373, 1, 593),
  (11374, 11374, 1, 625), (11375, 11375, 1, 592), (11376, 11376, 1, 594), (11378, 11378, 1, 11379),
  (11381, 11381, 1, 11382), (11390, 11391, 1, 575), (11392, 11490, 2, 11393), (11499, 11501, 2, 11500),
  (11506, 11506, 1, 11507), (42560, 42604, 2, 42561), (42624, 42650, 2, 42625), (42786, 42798, 2, 42787),
  (42802, 42862, 2, 42803), (42873, 42875, 2, 42874), (42877, 42877, 1, 7545), (42878, 42886, 2, 42879),
  (42891, 42891, 1, 42892), (42893, 42893, 1, 613), (42896, 42898, 2, 42897), (42902, 42920, 2, 42903),
  (42922, 42922, 1, 614), (42923, 42923, 1, 604), (42924, 42924, 1, 609), (42925, 42925, 1, 620),
  (42926, 42926, 1, 618), (42928, 42928, 1, 670), (42929, 42929, 1, 647), (42930, 42930, 1, 669),
  (42931, 42931, 1, 43859), (42932, 42946, 2, 42933), (42948, 42948, 1, 42900), (42949, 42949, 1, 642),
  (42950, 42950, 1, 7566), (42951, 42953, 2, 42952), (42960, 42960, 1, 42961), (42966, 42968, 2, 42967),
  (42997, 42997, 1, 42998), (65313, 65338, 1, 65345), (66560, 66599, 1, 66600), (66736, 66771, 1, 66776),
  (66928, 66938, 1, 66967), (66940, 66954, 1, 66979), (66956, 66962, 1, 66995), (66964, 66965, 1, 67003),
  (68736, 68786, 1, 68800), (71840, 71871, 1, 71872), (93760, 93791, 1, 93792), (125184, 125217, 1, 125218)]

/-- The ranges `(first, last)` of the cased code points that are not case-ignorable. -/
def unicodeCasedRanges : List (Nat × Nat) := [
  (65, 90), (97, 122), (170, 170), (181, 181), (186, 186), (192, 214), (216, 246),
  (248, 442), (444, 447), (452, 659), (661, 687), (880, 883), (886, 887), (891, 893),
  (895, 895), (902, 902), (904, 906), (908, 908), (910, 929), (931, 1013), (1015, 1153),
  (1162, 1327), (1329, 1366), (1376, 1416), (4256, 4293), (4295, 4295), (4301, 4301), (4304, 4346),
  (4349, 4351), (5024, 5109), (5112, 5117), (7296, 7304), (7312, 7354), (7357, 7359), (7424, 7467),
  (7531, 7543), (7545, 7578), (7680, 7957), (7960, 7965), (7968, 8005), (8008, 8013), (8016, 8023),
  (8025, 8025), (8027, 8027), (8029, 8029), (8031, 8061), (8064, 8116), (8118, 8124), (8126, 8126),
  (8130, 8132), (8134, 8140), (8144, 8147), (8150, 8155), (8160, 8172), (8178, 8180), (8182, 8188),
  (8450, 8450), (8455, 8455), (8458, 8467), (8469, 8469), (8473, 8477), (8484, 8484), (8486, 8486),
  (8488, 8488), (8490, 8493), (8495, 8500), (8505, 8505), (8508, 8511), (8517, 8521), (8526, 8526),
  (8544, 8575), (8579, 8580), (9398, 9449), (11264, 11387), (11390, 11492), (11499, 11502), (11506, 11507),
  (11520, 11557), (11559, 11559), (11565, 11565), (42560, 42605), (42624, 42651), (42786, 42863), (42865, 42887),
  (42891, 42894), (42896, 42954), (42960, 42961), (42963, 42963), (42965, 42969), (42997, 42998), (43002, 43002),
  (43824, 43866), (43872, 43880), (43888, 43967), (64256, 64262), (64275, 64279), (65313, 65338), (65345, 65370),
  (66560, 66639), (66736, 66771), (66776, 66811), (66928, 66938), (66940, 66954), (66956, 66962), (66964, 66965),
  (66967, 66977), (66979, 66993), (66995, 67001), (67003, 67004), (68736, 68786), (68800, 68850), (71840, 71903),
  (93760, 93823), (119808, 119892), (119894, 119964), (119966, 119967), (119970, 119970), (119973, 119974), (119977, 119980),
  (119982, 119993), (119995, 119995), (119997, 120003), (120005, 120069), (120071, 120074), (120077, 120084), (120086, 120092),
  (120094, 120121), (120123, 120126), (120128, 120132), (120134, 120134), (120138, 120144), (120146, 120485), (120488, 120512),
  (120514, 120538), (120540, 120570), (120572, 120596), (120598, 120628), (120630, 120654), (120656, 120686), (120688, 120712),
  (120714, 120744), (120746, 120770), (120772, 120779), (122624, 122633), (122635, 122654), (125184, 125251), (127280, 127305),
  (127312, 127337), (127344, 127369)]

/-- The ranges `(first, last)` of the case-ignorable code points. -/
def unicodeCaseIgnorableRanges : List (Nat × Nat) := [
  (39, 39), (46, 46), (58, 58), (94, 94), (96, 96), (168, 168), (173, 173),
  (175, 175), (180, 180), (183, 184), (688, 879), (884, 885), (890, 890), (900, 901),
  (903, 903), (1155, 1161), (1369, 1369), (1375, 1375), (1425, 1469), (1471, 1471), (1473, 1474),
  (1476, 1477), (1479, 1479), (1524, 1524), (1536, 1541), (1552, 1562), (1564, 1564), (1600, 1600),
  (1611, 1631), (1648, 1648), (1750, 1757), (1759, 1768), (1770, 1773), (1807, 1807), (1809, 1809),
  (1840, 1866), (1958, 1968), (2027, 2037), (2042, 2042), (2045, 2045), (2070, 2093), (2137, 2139),
  (2184, 2184), (2192, 2193), (2200, 2207), (2249, 2306), (2362, 2362), (2364, 2364), (2369, 2376),
  (2381, 2381), (2385, 2391), (2402, 2403), (2417, 2417), (2433, 2433), (2492, 2492), (2497, 2500),
  (2509, 2509), (2530, 2531), (2558, 2558), (2561, 2562), (2620, 2620), (2625, 2626), (2631, 2632),
  (2635, 2637), (2641, 2641), (2672, 2673), (2677, 2677), (2689, 2690), (2748, 2748), (2753, 2757),
  (2759, 2760), (2765, 2765), (2786, 2787), (2810, 2815), (2817, 2817), (2876, 2876), (2879, 2879),
  (2881, 2884), (2893, 2893), (2901, 2902), (2914, 2915), (2946, 2946), (3008, 3008), (3021, 3021),
  (3072, 3072), (3076, 3076), (3132, 3132), (3134, 3136), (3142, 3144), (3146, 3149), (3157, 3158),
  (3170, 3171), (3201, 3201), (3260, 3260), (3263, 3263), (3270, 3270), (3276, 3277), (3298, 3299),
  (3328, 3329), (3387, 3388), (3393, 3396), (3405, 3405), (3426, 3427), (3457, 3457), (3530, 3530),
  (3538, 3540), (3542, 3542), (3633, 3633), (3636, 3642), (3654, 3662), (3761, 3761), (3764, 3772),
  (3782, 3782), (3784, 3789), (3864, 3865), (3893, 3893), (3895, 3895), (3897, 3897), (3953, 3966),
  (3968, 3972), (3974, 3975), (3981, 3991), (3993, 4028), (4038, 4038), (4141, 4144), (4146, 4151),
  (4153, 4154), (4157, 4158), (4184, 4185), (4190, 4192), (4209, 4212), (4226, 4226), (4229, 4230),
  (4237, 4237), (4253, 4253), (4348, 4348), (4957, 4959), (5906, 5908), (5938, 5939), (5970, 5971),
  (6002, 6003), (6068, 6069), (6071, 6077), (6086, 6086), (6089, 6099), (6103, 6103), (6109, 6109),
  (6155, 6159), (6211, 6211), (6277, 6278), (6313, 6313), (6432, 6434), (6439, 6440), (6450, 6450),
  (6457, 6459), (6679, 6680), (6683, 6683), (6742, 6742), (6744, 6750), (6752, 6752), (6754, 6754),
  (6757, 6764), (6771, 6780), (6783, 6783), (6823, 6823), (6832, 6862), (6912, 6915), (6964, 6964),
  (6966, 6970), (6972, 6972), (6978, 6978), (7019, 7027), (7040, 7041), (7074, 7077), (7080, 7081),
  (7083, 7085), (7142, 7142), (7144, 7145), (7149, 7149), (7151, 7153), (7212, 7219), (7222, 7223),
  (7288, 7293), (7376, 7378), (7380, 7392), (7394, 7400), (7405, 7405), (7412, 7412), (7416, 7417),
  (7468, 7530), (7544, 7544), (7579, 7679), (8125, 8125), (8127, 8129), (8141, 8143), (8157, 8159),
  (8173, 8175), (8189, 8190), (8203, 8207), (8216, 8217), (8228, 8228), (8231, 8231), (8234, 8238),
  (8288, 8292), (8294, 8303), (8305, 8305), (8319, 8319), (8336, 8348), (8400, 8432), (11388, 11389),
  (11503, 11505), (11631, 11631), (11647, 11647), (11744, 11775), (11823, 11823), (12293, 12293), (12330, 12333),
  (12337, 12341), (12347, 12347), (12441, 12446), (12540, 12542), (40981, 40981), (42232, 42237), (42508, 42508),
  (42607, 42610), (42612, 42621), (42623, 42623), (42652, 42655), (42736, 42737), (42752, 42785), (42864, 42864),
  (42888, 42890), (42994, 42996), (43000, 43001), (43010, 43010), (43014, 43014), (43019, 43019), (43045, 43046),
  (43052, 43052), (43204, 43205), (43232, 43249), (43263, 43263), (43302, 43309), (43335, 43345), (43392, 43394),
  (43443, 43443), (43446, 43449), (43452, 43453), (43471, 43471), (43493, 43494), (43561, 43566), (43569, 43570),
  (43573, 43574), (43587, 43587), (43596, 43596), (43632, 43632), (43644, 43644), (43696, 43696), (43698, 43700),
  (43703, 43704), (43710, 43711), (43713, 43713), (43741, 43741), (43756, 43757), (43763, 43764), (43766, 43766),
  (43867, 43871), (43881, 43883), (44005, 44005), (44008, 44008), (44013, 44013), (64286, 64286), (64434, 64450),
  (65024, 65039), (65043, 65043), (65056, 65071), (65106, 65106), (65109, 65109), (65279, 65279), (65287, 65287),
  (65294, 65294), (65306, 65306), (65342, 65342), (65344, 65344), (65392, 65392), (65438, 65439), (65507, 65507),
  (65529, 65531), (66045, 66045), (66272, 66272), (66422, 66426), (67456, 67461), (67463, 67504), (67506, 67514),
  (68097, 68099), (68101, 68102), (68108, 68111), (68152, 68154), (68159, 68159), (68325, 68326), (68900, 68903),
  (69291, 69292), (69446, 69456), (69506, 69509), (69633, 69633), (69688, 69702), (69744, 69744), (69747, 69748),
  (69759, 69761), (69811, 69814), (69817, 69818), (69821, 69821), (69826, 69826), (69837, 69837), (69888, 69890),
  (69927, 69931), (69933, 69940), (70003, 70003), (70016, 70017), (70070, 70078), (70089, 70092), (70095, 70095),
  (70191, 70193), (70196, 70196), (70198, 70199), (70206, 70206), (70367, 70367), (70371, 70378), (70400, 70401),
  (70459, 70460), (70464, 70464), (70502, 70508), (70512, 70516), (70712, 70719), (70722, 70724), (70726, 70726),
  (70750, 70750), (70835, 70840), (70842, 70842), (70847, 70848), (70850, 70851), (71090, 71093), (71100, 71101),
  (71103, 71104), (71132, 71133), (71219, 71226), (71229, 71229), (71231, 71232), (71339, 71339), (71341, 71341),
  (71344, 71349), (71351, 71351), (71453, 71455), (71458, 71461), (71463, 71467), (71727, 71735), (71737, 71738),
  (71995, 71996), (71998, 71998), (72003, 72003), (72148, 72151), (72154, 72155), (72160, 72160), (72193, 72202),
  (72243, 72248), (72251, 72254), (72263, 72263), (72273, 72278), (72281, 72283), (72330, 72342), (72344, 72345),
  (72752, 72758), (72760, 72765), (72767, 72767), (72850, 72871), (72874, 72880), (72882, 72883), (72885, 72886),
  (73009, 73014), (73018, 73018), (73020, 73021), (73023, 73029), (73031, 73031), (73104, 73105), (73109, 73109),
  (73111, 73111), (73459, 73460), (78896, 78904), (92912, 92916), (92976, 92982), (92992, 92995), (94031, 94031),
  (94095, 94111), (94176, 94177), (94179, 94180), (110576, 110579), (110581, 110587), (110589, 110590), (113821, 113822),
  (113824, 113827), (118528, 118573), (118576, 118598), (119143, 119145), (119155, 119170), (119173, 119179), (119210, 119213),
  (119362, 119364), (121344, 121398), (121403, 121452), (121461, 121461), (121476, 121476), (121499, 121503), (121505, 121519),
  (122880, 122886), (122888, 122904), (122907, 122913), (122915, 122916), (122918, 122922), (123184, 123197), (123566, 123566),
  (123628, 123631), (125136, 125142), (125252, 125259), (127995, 127999), (917505, 917505), (917536, 917631), (917760, 917999)]

/-- Is `c` in one of the ranges. -/
def inRanges (ranges : List (Nat × Nat)) (c : Nat) : Bool :=
  ranges.any (fun r => decide (r.1 ≤ c) && decide (c ≤ r.2))

/-- The target of `c` in the runs, when one of them holds it. -/
def lookupRun : List (Nat × Nat × Nat × Nat) → Nat → Option Nat
  | [], _ => none
  | (first, last, step, target) :: runs, c =>
    if first ≤ c ∧ c ≤ last ∧ (c - first) % step = 0 then some (target + (c - first))
    else lookupRun runs c

/-- The case data of Unicode 14. The capital I with dot above, `U+0130`, is the one code
point whose lower-case mapping has two code points. -/
def unicodeCase : CaseTable where
  lower := fun c =>
    if c = 304 then [105, 775]
    else
      match lookupRun unicodeLowerRuns c with
      | some d => [d]
      | none => [c]
  cased := inRanges unicodeCasedRanges
  caseIgnorable := inRanges unicodeCaseIgnorableRanges


/-! ## Data model -/

/-- One discovered candidate topic, as built by the parsers. -/
structure TrendItem where
  title : JSString
  url : String
  source : String
  timestamp : JSDate
  score : JSNum
deriving DecidableEq, Repr

/-- The value of a `title` property as the parsers observe it. -/
inductive JSTitle
  | str (s : JSString)
  | falsy
  | truthy
deriving DecidableEq, Repr

/-- One object of the `articles` array of the news payload. `url` is `none` when the
property is falsy; `publishedAt` is `none` when the property is falsy and otherwise the
time value that `new Date(article.publishedAt)` has. -/
structure Article where
  title : JSTitle
  url : Option String
  publishedAt : Option JSDate
deriving DecidableEq, Repr

/-- One element of the `articles` array: `null`, on which `article.title` throws a
`TypeError`, or a value whose properties can be read (an object; also a number, a string
or a boolean, all of whose properties are absent). -/
inductive ArticleEntry
  | null
  | object (article : Article)
deriving DecidableEq, Repr

/-- An element of `articles` as the interface of the news source describes it: an object
whose title is a string, or is missing or empty. -/
def ArticleEntry.Typed : ArticleEntry → Prop
  | .null => False
  | .object article => article.title ≠ .truthy

instance : DecidablePred ArticleEntry.Typed
  | .null => isFalse (fun h => h)
  | .object article => inferInstanceAs (Decidable (article.title ≠ .truthy))

/-- One element of the `hits` array of the forum payload. `created_at` is the time value
that `new Date(hit.created_at)` has; `points` is the number `hit.points` converts to. -/
structure Hit where
  title : JSTitle
  url : Option String
  objectID : String
  created_at : JSDate
  points : JSNum
deriving DecidableEq, Repr

/-- The body of an HTTP response as the two parsers observe it: `articles` and `hits` are
`none` when the property is missing or falsy. -/
structure ResponseData where
  articles : Option (List ArticleEntry)
  hits : Option (List Hit)
deriving DecidableEq, Repr

namespace TrendingFetcher

/-! ## Relevance filter and heuristic scorer -/

/-- The constant `aiKeywords` of `isAIRelated`. -/
def aiKeywords : List JSString := [
  "artificial intelligence", "ai", "machine learning", "ml", "deep learning",
  "neural network", "gpt", "chatgpt", "openai", "gemini", "claude", "llm",
  "generative ai", "genai", "transformer", "nlp", "computer vision",
  "robotics", "automation", "algorithm", "data science", "tensorflow",
  "pytorch", "hugging face", "anthropic", "midjourney", "stable diffusion"].map utf16

/-- The method `isAIRelated(title)` on a string title. -/
def isAIRelated (T : CaseTable) (title : JSString) : Bool :=
  let lowerTitle := toLowerCase T title
  aiKeywords.any (fun keyword => includes lowerTitle keyword)

/-- The constant `highValueKeywords` of `calculateRelevanceScore`. -/
def highValueKeywords : List JSString :=
  ["breakthrough", "new", "latest", "revolutionary", "major", "announces"].map utf16

/-- The constant `trendingTerms` of `calculateRelevanceScore`. -/
def trendingTerms : List JSString :=
  ["openai", "chatgpt", "gemini", "claude", "midjourney", "nvidia"].map utf16

/-- The method `calculateRelevanceScore(title)`: the two `forEach` loops are folds over
the keyword lists that update the running `score`. -/
def calculateRelevanceScore (T : CaseTable) (title : JSString) : Nat :=
  let score := 0
  let lowerTitle := toLowerCase T title
  let score := highValueKeywords.foldl
    (fun score keyword => if includes lowerTitle keyword then score + 2 else score) score
  let score := trendingTerms.foldl
    (fun score term => if includes lowerTitle term then score + 3 else score) score
  score

/-! ## Source adapters -/

/-- The expression `v || d` on an optional string property: the default is taken when the
property is missing or is the empty string. -/
def orDefault (v : Option String) (d : String) : String :=
  match v with
  | some u => if u = "" then d else u
  | none => d

/-- The loop of `parseGoogleNews` over `data.articles.slice(0, 10)`, pushing onto `items`.
Reading `article.title` of `null` throws a `TypeError`, and so does `title.toLowerCase()`
on a truthy title that is not a string. -/
def parseGoogleNewsLoop (T : CaseTable) (now : Int) : List ArticleEntry → List TrendItem →
    Except Unit (List TrendItem)
  | [], items => pure items
  | .null :: _, _ => throw ()
  | .object article :: rest, items =>
    match article.title with
    | .falsy => parseGoogleNewsLoop T now rest items
    | .truthy => throw ()
    | .str title =>
      if title ≠ [] ∧ isAIRelated T title = true then
        parseGoogleNewsLoop T now rest (items ++ [{
          title := title
          url := orDefault article.url ""
          source := "NewsAPI"
          timestamp := article.publishedAt.getD (some now)
          score := some (calculateRelevanceScore T title : ℚ) }])
      else parseGoogleNewsLoop T now rest items

/-- The method `parseGoogleNews(data)`; `now` is the reading of `Date.now()`. -/
def parseGoogleNews (T : CaseTable) (now : Int) (data : ResponseData) : List TrendItem :=
  let body : Except Unit (List TrendItem) :=
    match data.articles with
    | some (a :: as) => parseGoogleNewsLoop T now ((a :: as).take 10) []
    | _ => pure []
  match body with
  | .ok items => items
  | .error _ => []

/-- The loop of `parseHackerNews` over `data.hits.slice(0, 10)`, pushing onto `items`.
A title that is not a string makes `title.toLowerCase()` throw a `TypeError`. -/
def parseHackerNewsLoop (T : CaseTable) : List Hit → List TrendItem →
    Except Unit (List TrendItem)
  | [], items => pure items
  | hit :: rest, items =>
    match hit.title with
    | .str title =>
      if isAIRelated T title = true then
        parseHackerNewsLoop T rest (items ++ [{
          title := title
          url := orDefault hit.url ("https://news.ycombinator.com/item?id=" ++ hit.objectID)
          source := "Hacker News"
          timestamp := hit.created_at
          score := jsAdd (some (calculateRelevanceScore T title : ℚ))
            (jsDivConst hit.points 10) }])
      else parseHackerNewsLoop T rest items
    | _ => throw ()

/-- The method `parseHackerNews(data)`. -/
def parseHackerNews (T : CaseTable) (data : ResponseData) : List TrendItem :=
  let body : Except Unit (List TrendItem) :=
    match data.hits with
    | some hits => parseHackerNewsLoop T (hits.take 10) []
    | none => pure []
  match body with
  | .ok items => items
  | .error _ => []

/-! ## External ranking client -/

/-- One element of the parsed reply array as the matching step observes it: `title` is
`none` when `s.title.toLowerCase()` would throw (no string `title`), `score` is the number
the `score` property converts to. -/
structure ReplyEntry where
  title : Option JSString
  score : JSNum
deriving DecidableEq, Repr

/-- The value `JSON.parse` returned: an array of entries, or any other JSON value (on
which `scores.find` is not a function). -/
inductive ParsedReply
  | array (entries : List ReplyEntry)
  | other
deriving DecidableEq, Repr

/-- What the calls up to `response.response.text()` did: threw, or produced a text. -/
inductive RankingCall
  | throws
  | text (t : JSString)
deriving DecidableEq, Repr

/-- The replacement `replace(/[fence]json|[fence]/g, "")` on the code units, scanning
left to right; the counter is the number of code units of the current match still to drop. -/
def stripFencesL : Nat → List Nat → List Nat
  | _, [] => []
  | skip + 1, _ :: cs => stripFencesL skip cs
  | 0, c :: cs =>
    if (utf16 "```json").isPrefixOf (c :: cs) then stripFencesL 6 cs
    else if (utf16 "```").isPrefixOf (c :: cs) then stripFencesL 2 cs
    else c :: stripFencesL 0 cs

/-- The cleaning of the reply text before `JSON.parse`: fences removed, then `trim`. -/
def cleanReply (text : JSString) : JSString := trim (stripFencesL 0 text)

/-- The call `scores.find(s => s.title.toLowerCase().includes(pfx))` on an array. -/
def findMatch (T : CaseTable) (pfx : JSString) :
    List ReplyEntry → Except Unit (Option ReplyEntry)
  | [] => pure none
  | s :: rest =>
    match s.title with
    | none => throw ()
    | some t => if includes (toLowerCase T t) pfx then pure (some s) else findMatch T pfx rest

/-- The callback of `trends.map` in `scoreWithGemini`. -/
def rescore (T : CaseTable) (scores : ParsedReply) (trend : TrendItem) :
    Except Unit TrendItem :=
  match scores with
  | .other => throw ()
  | .array entries =>
    match findMatch T (slice0 (toLowerCase T trend.title) 20) entries with
    | .error e => throw e
    | .ok (some m) => pure { trend with score := m.score }
    | .ok none => pure { trend with score := some 0 }

/-- The call `trends.map(callback)` where the callback may throw. -/
def mapRescore (T : CaseTable) (scores : ParsedReply) :
    List TrendItem → Except Unit (List TrendItem)
  | [] => pure []
  | trend :: rest =>
    match rescore T scores trend with
    | .error e => throw e
    | .ok t =>
      match mapRescore T scores rest with
      | .error e => throw e
      | .ok ts => pure (t :: ts)

/-- The body of the outer `try` of `scoreWithGemini`. The inner `try`/`catch` around
`JSON.parse` replaces a parse failure by the empty array. -/
def scoreWithGeminiBody (T : CaseTable) (jsonParse : JSString → Option ParsedReply)
    (call : RankingCall) (trends : List TrendItem) : Except Unit (List TrendItem) :=
  match call with
  | .throws => throw ()
  | .text response =>
    let text := cleanReply response
    let scores : ParsedReply :=
      match jsonParse text with
      | some v => v
      | none => .array []
    mapRescore T scores trends

/-- The method `scoreWithGemini(trends)`: the outer `catch` returns `trends`. -/
def scoreWithGemini (T : CaseTable) (jsonParse : JSString → Option ParsedReply)
    (call : RankingCall) (trends : List TrendItem) : List TrendItem :=
  match scoreWithGeminiBody T jsonParse call trends with
  | .ok ranked => ranked
  | .error _ => trends

/-! ## Aggregator -/

/-- The comparator passed to `sort` in `fetchTrends`. -/
def compareFn (a b : TrendItem) : JSNum :=
  let scoreDiff := jsSub b.score a.score
  if scoreDiff ≠ some 0 then scoreDiff
  else jsSub (dateValue b.timestamp) (dateValue a.timestamp)

end TrendingFetcher


/-- The comparison `Array.prototype.sort` makes: a `NaN` from the comparator counts as 0. -/
def sortCompare {α : Type} (comparefn : α → α → JSNum) (x y : α) : ℚ :=
  (comparefn x y).getD 0

/-- Insertion of `x` in front of the first element it does not have to follow. -/
def sortInsert {α : Type} (comparefn : α → α → JSNum) (x : α) : List α → List α
  | [] => [x]
  | y :: ys =>
    if sortCompare comparefn x y ≤ 0 then x :: y :: ys
    else y :: sortInsert comparefn x ys

/-- The method `Array.prototype.sort(comparefn)` as a stable insertion sort. For a
consistent comparator the stable sorted order is unique, so this is the order any
conforming engine produces. -/
def arraySort {α : Type} (comparefn : α → α → JSNum) : List α → List α
  | [] => []
  | x :: xs => sortInsert comparefn x (arraySort comparefn xs)

/-! ## Retry wrapper (`helpers.js`) -/

/-- What a run of `retryWrapper` did: its result (a thrown value is `none` when it is the
never assigned `lastError`), how often it called `fn`, and the delays it slept, in order. -/
structure RetryRun (ε α : Type) where
  result : Except (Option ε) α
  calls : Nat
  delays : List Nat

/-- The `for` loop of `retryWrapper`, entered with the counter at `attempt`; the first
argument is the number of iterations left, `maxRetries + 1 - attempt`. The outcome of the
`k`-th call of `fn` is `fn k`. -/
def retryLoop {ε α : Type} (fn : Nat → Except ε α) (maxRetries baseDelay : Nat) :
    Nat → Nat → Option ε → List Nat → RetryRun ε α
  | 0, attempt, lastError, slept => ⟨.error lastError, attempt - 1, slept⟩
  | left + 1, attempt, _, slept =>
    match fn attempt with
    | .ok v => ⟨.ok v, attempt, slept⟩
    | .error error =>
      if attempt = maxRetries then ⟨.error (some error), attempt, slept⟩
      else
        let delay := baseDelay * 2 ^ (attempt - 1)
        retryLoop fn maxRetries baseDelay left (attempt + 1) (some error) (slept ++ [delay])

/-- The function `retryWrapper(fn, maxRetries, baseDelay)`. -/
def retryWrapper {ε α : Type} (fn : Nat → Except ε α) (maxRetries baseDelay : Nat) :
    RetryRun ε α :=
  retryLoop fn maxRetries baseDelay maxRetries 1 none []

namespace TrendingFetcher

/-- One entry of `this.sources`; the parser receives the clock reading and the payload. -/
structure Source where
  name : String
  url : String
  parser : Int → ResponseData → List TrendItem

/-- The address of the news feed. -/
def newsUrl : String :=
  "https://newsapi.org/v2/top-headlines?sources=techcrunch&apiKey=930c29c405d34f85832b7e669f68d04c"

/-- The address of the forum search. -/
def forumUrl : String :=
  "https://hn.algolia.com/api/v1/search?query=artificial%20intelligence%20OR%20machine%20learning%20OR%20AI&tags=story&hitsPerPage=10"

/-- The field `this.sources` set by the constructor. -/
def sources (T : CaseTable) : List Source := [
  { name := "Google News RSS", url := newsUrl, parser := parseGoogleNews T },
  { name := "Hacker News", url := forumUrl, parser := fun _ data => parseHackerNews T data }]

/-- The method `fetchFromSource(source)` on its `attempt`-th call: `net url attempt` is
what `axios.get(url)` does then, an error or the response body. -/
def fetchFromSource (net : String → Nat → Except Unit ResponseData) (now : Int)
    (source : Source) (attempt : Nat) : Except Unit (List TrendItem) :=
  match net source.url attempt with
  | .ok data => pure (source.parser now data)
  | .error error => throw error

/-- The `for` loop of `fetchTrends` over the sources, extending `allTrends`. -/
def collectTrends (net : String → Nat → Except Unit ResponseData) (now : Int) :
    List Source → List TrendItem → List TrendItem
  | [], allTrends => allTrends
  | source :: rest, allTrends =>
    match (retryWrapper (fetchFromSource net now source) 3 1000).result with
    | .ok trends => collectTrends net now rest (allTrends ++ trends)
    | .error _ => collectTrends net now rest allTrends

/-- The method `fetchTrends()`. -/
def fetchTrends (T : CaseTable) (net : String → Nat → Except Unit ResponseData) (now : Int)
    (jsonParse : JSString → Option ParsedReply) (call : RankingCall) : List TrendItem :=
  let allTrends := collectTrends net now (sources T) []
  let uniqueTrends := scoreWithGemini T jsonParse call allTrends
  let uniqueTrends := arraySort compareFn uniqueTrends
  uniqueTrends.take 5

end TrendingFetcher

/-! ## Specification-side notions and example data -/

/-- The JavaScript comparison `a > b` on numbers: false when either side is `NaN`. -/
def jsGt (a b : JSNum) : Bool :=
  match a, b with
  | some x, some y => decide (x > y)
  | _, _ => false

/-- The JavaScript comparison `a == b` on numbers: false when either side is `NaN`. -/
def jsEq (a b : JSNum) : Bool :=
  match a, b with
  | some x, some y => decide (x = y)
  | _, _ => false

/-- The JavaScript comparison `a >= b` on numbers: false when either side is `NaN`. -/
def jsGe (a b : JSNum) : Bool :=
  match a, b with
  | some x, some y => decide (x ≥ y)
  | _, _ => false

/-- The order the specification states for an adjacent pair `(a, b)` of the output:
`a.score > b.score`, or `a.score == b.score` and `a.timestamp >= b.timestamp`. -/
def inOutputOrder (a b : TrendItem) : Bool :=
  jsGt a.score b.score
    || (jsEq a.score b.score && jsGe (dateValue a.timestamp) (dateValue b.timestamp))

namespace TrendingFetcher

/-- The score the specification gives an item: that of the first reply entry whose
lower-cased title contains the first 20 characters of the item's lower-cased title (the
whole title when it is shorter), and 0 when no entry does. -/
def specScore (T : CaseTable) (entries : List ReplyEntry) (title : JSString) : JSNum :=
  match entries.find? (fun e =>
      match e.title with
      | some s => decide ((toLowerCase T title).take 20 <:+: toLowerCase T s)
      | none => false) with
  | some e => e.score
  | none => some 0

/-- A parser that agrees with `JSON.parse` on the texts of the examples below: it reads the
one JSON document of the ranking example and rejects the replies that are plain prose. -/
def exampleParse (text : JSString) : Option ParsedReply :=
  if text = utf16 "[\x7b\"title\":\"Gemini 2.0\",\"score\":9\x7d]" then
    some (.array [{ title := some (utf16 "Gemini 2.0"), score := some 9 }])
  else none

/-- A news item with heuristic score 7. -/
def exampleNewsItem : TrendItem :=
  { title := utf16 "OpenAI Announces Breakthrough GPT-5 Model", url := "",
    source := "NewsAPI", timestamp := some 1000, score := some 7 }

/-- A forum item whose title starts with "Gemini 2.0 beats humans". -/
def exampleForumItem : TrendItem :=
  { title := utf16 "Gemini 2.0 beats humans at chess", url := "https://example.org/1",
    source := "Hacker News", timestamp := some 500, score := some 7 }

/-- A forum item whose whole title the reply of the ranking example contains. -/
def exampleShortItem : TrendItem :=
  { title := utf16 "GEMINI 2.0", url := "https://example.org/2",
    source := "Hacker News", timestamp := some 400, score := some 3 }

/-- The reply text of the ranking example. -/
def exampleReplyText : JSString :=
  utf16 "```json\n[\x7b\"title\":\"Gemini 2.0\",\"score\":9\x7d]\n```"

/-- An item whose score is a number and whose timestamp is a valid date. -/
def WellFormed (a : TrendItem) : Prop := a.score ≠ none ∧ a.timestamp ≠ none

instance (a : TrendItem) : Decidable (WellFormed a) :=
  inferInstanceAs (Decidable (a.score ≠ none ∧ a.timestamp ≠ none))

/-- A network in which every request succeeds: the news feed answers `news`, the forum
search answers `forum`. -/
def scenarioNet (news forum : ResponseData) (url : String) (_attempt : Nat) :
    Except Unit ResponseData :=
  if url = newsUrl then .ok news else .ok forum

/-- A news payload of two equally scored articles, the second with an unparseable date. -/
def undatedNews : ResponseData :=
  { articles := some [
      .object { title := .str (utf16 "AI chips"), url := none, publishedAt := some (some 5) },
      .object { title := .str (utf16 "AI labs"), url := none, publishedAt := some none }]
    hits := none }

/-- A payload without articles and without hits. -/
def emptyPayload : ResponseData := { articles := none, hits := none }

/-- The news payload of the round-trip scenario: one article with the given link and date. -/
def roundTripNews (link : Option String) (publishedAt : Option JSDate) : ResponseData :=
  { articles := some [
      .object { title := .str (utf16 "OpenAI Announces Breakthrough GPT-5 Model"),
                url := link, publishedAt := publishedAt }]
    hits := none }

/-- The forum payload of the round-trip scenario: one hit with 40 points. -/
def roundTripForum (link : Option String) (objectID : String) (created_at : JSDate) :
    ResponseData :=
  { articles := none
    hits := some [
      { title := .str (utf16 "Gemini 2.0 beats humans"), url := link, objectID := objectID,
        created_at := created_at, points := some 40 }] }

/-- The item the news payload of the round-trip scenario yields. -/
def roundTripNewsItem (now : Int) (link : Option String) (publishedAt : Option JSDate) :
    TrendItem :=
  { title := utf16 "OpenAI Announces Breakthrough GPT-5 Model", url := orDefault link "",
    source := "NewsAPI", timestamp := publishedAt.getD (some now), score := some 7 }

/-- The item the forum payload of the round-trip scenario yields. -/
def roundTripForumItem (link : Option String) (objectID : String) (created_at : JSDate) :
    TrendItem :=
  { title := utf16 "Gemini 2.0 beats humans",
    url := orDefault link ("https://news.ycombinator.com/item?id=" ++ objectID),
    source := "Hacker News", timestamp := created_at, score := some 7 }

end TrendingFetcher

/-! ## Specification-side notions for the adapters -/

namespace TrendingFetcher

/-- The item the specification gives for an element of `articles`: one for an object with
a string title that passes `isAIRelated`, carrying the title, the link or the empty
string, and the heuristic score; none for any other element. -/
def expectedNewsItem (T : CaseTable) (now : Int) (entry : ArticleEntry) : Option TrendItem :=
  match entry with
  | .object article =>
    match article.title with
    | .str title =>
      if isAIRelated T title = true then
        some {
          title := title
          url := orDefault article.url ""
          source := "NewsAPI"
          timestamp := article.publishedAt.getD (some now)
          score := some (calculateRelevanceScore T title : ℚ) }
      else none
    | _ => none
  | .null => none

/-- The item the specification gives for a hit with a string title and numeric points:
one when the title passes `isAIRelated`, scored `calculateRelevanceScore(title)` plus a
tenth of the points; none for any other hit. -/
def expectedForumItem (T : CaseTable) (hit : Hit) : Option TrendItem :=
  match hit.title, hit.points with
  | .str title, some points =>
    if isAIRelated T title = true then
      some {
        title := title
        url := orDefault hit.url ("https://news.ycombinator.com/item?id=" ++ hit.objectID)
        source := "Hacker News"
        timestamp := hit.created_at
        score := some ((calculateRelevanceScore T title : ℚ) + points / 10) }
    else none
  | _, _ => none

/-- An article that does not pass the relevance filter. -/
def weatherArticle : ArticleEntry :=
  .object { title := .str (utf16 "Weather report"), url := none, publishedAt := none }

/-- A news payload of twelve articles: of the first ten, the first and the fourth pass the
relevance filter, the third has no title and the fifth an empty one; the eleventh passes
the filter as well. -/
def twelveArticles : ResponseData :=
  { articles := some [
      .object { title := .str (utf16 "OpenAI Announces Breakthrough GPT-5 Model"),
                url := some "https://example.org/a", publishedAt := some (some 5) },
      weatherArticle,
      .object { title := .falsy, url := none, publishedAt := none },
      .object { title := .str (utf16 "New AI chips"), url := some "", publishedAt := none },
      .object { title := .str [], url := none, publishedAt := none },
      weatherArticle, weatherArticle, weatherArticle, weatherArticle, weatherArticle,
      .object { title := .str (utf16 "New AI chips"), url := none, publishedAt := none },
      weatherArticle]
    hits := none }

end TrendingFetcher

/-- An operation that times out on its first two calls and returns 7 on the third. -/
def failTwice (attempt : Nat) : Except String Nat :=
  if attempt = 3 then .ok 7 else .error "timeout"

/-! ## Microblog publisher (`twitterPublisher.js`) -/

/-- The class `\w` of a regular expression without the unicode flag, on a code unit: the
digits, the letters `A`-`Z` and `a`-`z`, and the underscore. -/
def isWordChar (u : Nat) : Bool :=
  (decide (48 ≤ u) && decide (u ≤ 57)) || (decide (65 ≤ u) && decide (u ≤ 90))
    || (decide (97 ≤ u) && decide (u ≤ 122)) || u == 95

/-- Does a match of `/#\w+/` start at the code unit `c` followed by `cs`; 35 is `#`. -/
def startsHashtag (c : Nat) (cs : List Nat) : Bool :=
  c == 35 && (match cs with
    | d :: _ => isWordChar d
    | [] => false)

/-- The matches of `/#\w+/g` in a list of code units, in order. A match starts at every `#`
that a word character follows (such a `#` is never inside an earlier match, which holds
word characters only after its own `#`) and takes all the word characters that follow. -/
def hashtagMatchesL : List Nat → List (List Nat)
  | [] => []
  | c :: cs =>
    if startsHashtag c cs then (35 :: cs.takeWhile isWordChar) :: hashtagMatchesL cs
    else hashtagMatchesL cs

/-- The call `text.match(/#\w+/g) || []`. -/
def hashtagMatches (text : JSString) : List JSString := hashtagMatchesL text

/-- The replacement `replace(/#\w+/g, "")` on a list of code units; the flag says that the
scan is inside a match, past its `#`. -/
def removeHashtagsL : Bool → List Nat → List Nat
  | _, [] => []
  | inMatch, c :: cs =>
    if inMatch && isWordChar c then removeHashtagsL true cs
    else if startsHashtag c cs then removeHashtagsL true cs
    else c :: removeHashtagsL false cs

/-- The call `text.replace(/#\w+/g, "")`. -/
def removeHashtags (text : JSString) : JSString := removeHashtagsL false text

/-- The expression `[...new Set(xs)]`: the distinct elements in order of first occurrence. -/
def uniq {α : Type} [DecidableEq α] : List α → List α
  | [] => []
  | x :: xs => x :: (uniq xs).filter (fun y => y ≠ x)

/-- The call `xs.join(sep)` on an array of texts that are kept as Lean strings. -/
def joinWith (sep : String) : List String → String
  | [] => ""
  | [x] => x
  | x :: y :: rest => x ++ sep ++ joinWith sep (y :: rest)

/-- The call `xs.join(sep)` on an array of JavaScript strings. -/
def joinUnits (sep : JSString) : List JSString → JSString
  | [] => []
  | [x] => x
  | x :: y :: rest => x ++ sep ++ joinUnits sep (y :: rest)

/-- The scan behind `lastIndexOf`: the index of the last `c` at or after index `i`, or
`best` when there is none. -/
def lastIndexFrom (c : Nat) : List Nat → Nat → Int → Int
  | [], _, best => best
  | x :: xs, i, best => lastIndexFrom c xs (i + 1) (if x = c then (i : Int) else best)

/-- The call `s.lastIndexOf(c)` for a single code unit `c`: the index of the last `c`,
or -1. -/
def lastIndexOf (s : JSString) (c : Nat) : Int := lastIndexFrom c s 0 (-1)

/-- A well-formed hashtag: `#` followed by one or more word characters. -/
def IsHashtag (t : List Nat) : Prop :=
  ∃ w : List Nat, t = 35 :: w ∧ w ≠ [] ∧ ∀ c ∈ w, isWordChar c = true

/-- The first code unit, when there is one, is not a word character. -/
def HeadNotWord (l : List Nat) : Prop :=
  match l with
  | [] => True
  | d :: _ => isWordChar d = false

namespace TwitterPublisher

/-- The method `truncateTweet(text, maxLength)`; `text.length` is the number of code units,
and 32 is the space. The test `lastSpace > maxLength * 0.8` is made exactly, as
`10 * lastSpace > 8 * maxLength`; `substring(0, n)` with a negative `n` is
`substring(0, 0)`, which the truncated subtraction on `Nat` gives as well. -/
def truncateTweet (text : JSString) (maxLength : Nat) : JSString :=
  if text.length ≤ maxLength then text
  else
    let truncated := slice0 text (maxLength - 3)
    let lastSpace := lastIndexOf truncated 32
    if 10 * lastSpace > 8 * (maxLength : Int) then
      slice0 truncated lastSpace.toNat ++ utf16 "..."
    else truncated ++ utf16 "..."

/-- The method `optimizeTweet(tweetText)`. -/
def optimizeTweet (tweetText : JSString) : JSString :=
  let optimized := tweetText
  let hashtags := uniq (hashtagMatches optimized)
  let content := trim (removeHashtags optimized)
  let priorityHashtags := hashtags.take 5
  let optimized := content ++ utf16 " " ++ joinUnits (utf16 " ") priorityHashtags
  truncateTweet optimized 280

/-- The text `optimizeTweet` rebuilds before it truncates. -/
def rebuiltTweet (tweetText : JSString) : JSString :=
  trim (removeHashtags tweetText) ++ utf16 " "
    ++ joinUnits (utf16 " ") ((uniq (hashtagMatches tweetText)).take 5)

/-- A tweet of 290 letters followed by one hashtag. -/
def longTweet : JSString := List.replicate 290 120 ++ utf16 " #ai"

/-- A tweet of 141 emoji, each of them one code point and two code units. -/
def emojiTweet : JSString := (List.replicate 141 (utf16 "😀")).flatten

/-- A hashtag of 136 letters. -/
def tag136 : JSString := 35 :: List.replicate 136 97

/-- A hashtag of 200 letters. -/
def tag200 : JSString := 35 :: List.replicate 200 97

/-- A tweet of two distinct long hashtags, the first a beginning of the second. -/
def twoTagTweet : JSString := utf16 "x " ++ tag136 ++ utf16 " " ++ tag200

end TwitterPublisher

/-! ## Serverless entry point (`api/cron.js`) and the publishers' constructors -/

/-- The process environment: the value of a variable, when it is set. -/
abbrev Env := String → Option String

/-- The truthiness of `process.env[name]`: set, and not the empty string. -/
def envTruthy (env : Env) (name : String) : Bool :=
  match env name with
  | some v => v != ""
  | none => false

/-- The function `validateEnvVars(requiredVars)` of `helpers.js`. -/
def validateEnvVars (env : Env) (requiredVars : List String) : Except String Unit :=
  let missing := requiredVars.filter (fun varName => !envTruthy env varName)
  if missing.length > 0 then
    throw ("Missing required environment variables: " ++ joinWith ", " missing)
  else pure ()

namespace ContentGenerator

/-- The constructor of `ContentGenerator`. -/
def construct (env : Env) : Except String Unit :=
  if !envTruthy env "GEMINI_API_KEY" then
    throw "GEMINI_API_KEY environment variable is required"
  else pure ()

end ContentGenerator

namespace TwitterPublisher

/-- The constructor of `TwitterPublisher`: the four credentials are required. -/
def construct (env : Env) : Except String Unit :=
  let requiredVars := ["API_KEY", "API_KEY_SECRET", "ACCESS_TOKEN", "ACCESS_TOKEN_SECRET"]
  let missingVars := requiredVars.filter (fun key => !envTruthy env key)
  if missingVars.length > 0 then
    throw ("Missing required environment variables: " ++ joinWith ", " missingVars)
  else pure ()

end TwitterPublisher

namespace HashnodePublisher

/-- The test `/^[0-9a-fA-F]+$/.test(id)`. -/
def isHex (id : String) : Bool :=
  !id.data.isEmpty && id.data.all (fun c =>
    c.isDigit || (decide ('a' ≤ c) && decide (c ≤ 'f')) || (decide ('A' ≤ c) && decide (c ≤ 'F')))

/-- The constructor of `HashnodePublisher`: the token and a publication id of 24 hex
characters are required. -/
def construct (env : Env) : Except String Unit :=
  if !envTruthy env "HASHNODE_API_TOKEN" then throw "HASHNODE_API_TOKEN is required"
  else if !envTruthy env "HASHNODE_PUBLICATION_ID" then
    throw "HASHNODE_PUBLICATION_ID is required"
  else
    let publicationId := (env "HASHNODE_PUBLICATION_ID").getD ""
    if publicationId.length ≠ 24 ∨ isHex publicationId = false then
      throw ("Invalid HASHNODE_PUBLICATION_ID format: " ++ publicationId
        ++ ". Should be 24 hex characters.")
    else pure ()

end HashnodePublisher

namespace AIContentAgent

/-- The object `results` of `runAutomation`; `none` is `null`. -/
structure Results where
  twitter : Option String
  hashnode : Option String
deriving DecidableEq, Repr

/-- The constructor of `AIContentAgent` in `api/cron.js`: it constructs the fetcher, the
generator and both publishers, in this order. -/
def construct (env : Env) : Except String Unit :=
  match ContentGenerator.construct env with
  | .error e => throw e
  | .ok _ =>
    match TwitterPublisher.construct env with
    | .error e => throw e
    | .ok _ => HashnodePublisher.construct env

/-- The method `runAutomation()` of `api/cron.js`. Its inputs are what the collaborators
do: the topics `fetchTrends` returns, the outcome of `generateContent`, and the outcomes
of `publishTweet` and `publishPost` (a result, or a thrown message). -/
def runAutomation (env : Env) (trendingTopics : List TrendItem)
    (generated tweeted posted : Except String String) : Except String Results :=
  match validateEnvVars env ["GEMINI_API_KEY"] with
  | .error e => throw e
  | .ok _ =>
    if trendingTopics.length = 0 then throw "No trending topics found"
    else
      match generated with
      | .error e => throw e
      | .ok _ =>
        let twitter : Option String :=
          if envTruthy env "TWITTER_API_KEY" then
            match tweeted with
            | .ok r => some r
            | .error _ => none
          else none
        let hashnode : Option String :=
          if envTruthy env "HASHNODE_API_TOKEN" then
            match posted with
            | .ok r => some r
            | .error _ => none
          else none
        pure { twitter := twitter, hashnode := hashnode }

/-- A run of the entry point: `new AIContentAgent()` followed by `runAutomation()`. -/
def run (env : Env) (trendingTopics : List TrendItem)
    (generated tweeted posted : Except String String) : Except String Results :=
  match construct env with
  | .error e => throw e
  | .ok _ => runAutomation env trendingTopics generated tweeted posted

/-- An environment with the generative credential and every microblog credential, and
with the blog token absent. -/
def envWithoutBlogToken : Env := fun name =>
  if name ∈ ["GEMINI_API_KEY", "API_KEY", "API_KEY_SECRET", "ACCESS_TOKEN",
      "ACCESS_TOKEN_SECRET", "TWITTER_API_KEY"] then some "secret"
  else if name = "HASHNODE_PUBLICATION_ID" then some "0123456789abcdef01234567"
  else none

/-- An environment with the generative credential and the blog credentials, and with
every microblog credential absent. -/
def envWithoutMicroblog : Env := fun name =>
  if name ∈ ["GEMINI_API_KEY", "HASHNODE_API_TOKEN"] then some "secret"
  else if name = "HASHNODE_PUBLICATION_ID" then some "0123456789abcdef01234567"
  else none

/-- An environment in which only `TWITTER_API_KEY`, the variable `runAutomation` tests, is
absent. -/
def envWithoutTwitterApiKey : Env := fun name =>
  if name ∈ ["GEMINI_API_KEY", "API_KEY", "API_KEY_SECRET", "ACCESS_TOKEN",
      "ACCESS_TOKEN_SECRET", "HASHNODE_API_TOKEN"] then some "secret"
  else if name = "HASHNODE_PUBLICATION_ID" then some "0123456789abcdef01234567"
  else none

end AIContentAgent


/-! # Theorems -/

/-! ## Strings -/

theorem includesL_iff (s k : List Nat) : includesL s k = true ↔ k <:+: s := by
  induction s with
  | nil => cases k <;> simp [includesL]
  | cons c cs ih =>
    rw [includesL, Bool.or_eq_true, ih, List.isPrefixOf_iff_prefix, List.infix_cons_iff]

theorem includes_iff (s k : JSString) : includes s k = true ↔ k <:+: s :=
  includesL_iff s k

theorem codeUnits_append (x y : List Nat) : codeUnits (x ++ y) = codeUnits x ++ codeUnits y := by
  induction x with
  | nil => rfl
  | cons c cs ih => simp [codeUnits, ih]

theorem codePoints_cons_of_not_high (u : Nat) (s : JSString) (h : isHighSurrogate u = false) :
    codePoints (u :: s) = u :: codePoints s := by
  cases s with
  | nil => rfl
  | cons v rest => simp [codePoints, h]

theorem not_low_of_high (u : Nat) (h : isHighSurrogate u = true) : isLowSurrogate u = false := by
  simp only [isHighSurrogate, isLowSurrogate, Bool.and_eq_true, decide_eq_true_eq,
    Bool.and_eq_false_iff, decide_eq_false_iff_not] at *
  omega

theorem not_high_of_low (u : Nat) (h : isLowSurrogate u = true) : isHighSurrogate u = false := by
  simp only [isHighSurrogate, isLowSurrogate, Bool.and_eq_true, decide_eq_true_eq,
    Bool.and_eq_false_iff, decide_eq_false_iff_not] at *
  omega

theorem not_high_of_ascii (u : Nat) (h : u < 128) : isHighSurrogate u = false := by
  simp only [isHighSurrogate, Bool.and_eq_false_iff, decide_eq_false_iff_not]
  omega

theorem not_low_of_ascii (u : Nat) (h : u < 128) : isLowSurrogate u = false := by
  simp only [isLowSurrogate, Bool.and_eq_false_iff, decide_eq_false_iff_not]
  omega

/-- Reading code points splits where the right part does not begin with a trailing
surrogate. -/
theorem codePoints_append_of_not_low (a b : JSString)
    (hb : ∀ h rest, b = h :: rest → isLowSurrogate h = false) :
    codePoints (a ++ b) = codePoints a ++ codePoints b := by
  generalize hn : a.length = n
  induction n using Nat.strong_induction_on generalizing a with
  | _ n ih =>
    match a, hn with
    | [], _ => rfl
    | [u], _ =>
      cases b with
      | nil => rfl
      | cons h rest =>
        have hl := hb h rest rfl
        simp [codePoints, hl]
    | u :: v :: a2, hn =>
      simp only [List.length_cons] at hn
      by_cases hp : (isHighSurrogate u && isLowSurrogate v) = true
      · have := ih a2.length (by omega) a2 rfl
        simp [codePoints, hp, this]
      · have := ih (v :: a2).length (by simp; omega) (v :: a2) rfl
        simp only [List.cons_append] at this
        simp [codePoints, hp, this]

/-- Reading code points splits after a code unit that is no leading surrogate. -/
theorem codePoints_append_of_not_high (a : JSString) (l : Nat) (b : JSString)
    (hl : isHighSurrogate l = false) :
    codePoints (a ++ l :: b) = codePoints (a ++ [l]) ++ codePoints b := by
  generalize hn : a.length = n
  induction n using Nat.strong_induction_on generalizing a with
  | _ n ih =>
    match a, hn with
    | [], _ => simp [codePoints_cons_of_not_high l b hl, codePoints]
    | [u], _ =>
      by_cases hp : (isHighSurrogate u && isLowSurrogate l) = true
      · simp [codePoints, hp]
      · simp [codePoints, hp, codePoints_cons_of_not_high l b hl]
    | u :: v :: a2, hn =>
      simp only [List.length_cons] at hn
      by_cases hp : (isHighSurrogate u && isLowSurrogate v) = true
      · have := ih a2.length (by omega) a2 rfl
        simp [codePoints, hp, this]
      · have := ih (v :: a2).length (by simp; omega) (v :: a2) rfl
        simp only [List.cons_append] at this
        simp [codePoints, hp, this]


theorem surrogate_of_high (u : Nat) (h : isHighSurrogate u = true) : 55296 ≤ u ∧ u ≤ 57343 := by
  simp only [isHighSurrogate, Bool.and_eq_true, decide_eq_true_eq] at h
  omega

theorem surrogate_of_low (u : Nat) (h : isLowSurrogate u = true) : 55296 ≤ u ∧ u ≤ 57343 := by
  simp only [isLowSurrogate, Bool.and_eq_true, decide_eq_true_eq] at h
  omega

/-- The code points of `t` inside `t ++ post`: all of them, except that a last leading
surrogate of `t` may pair with the first code unit of `post`. -/
theorem codePoints_split_right (t post : JSString) :
    ∃ core b B : List Nat, codePoints (t ++ post) = core ++ B
      ∧ codePoints t = core ++ b ∧ ∀ c ∈ b, 55296 ≤ c ∧ c ≤ 57343 := by
  cases post with
  | nil => exact ⟨codePoints t, [], [], by simp, by simp, by simp⟩
  | cons p post1 =>
    by_cases hp : isLowSurrogate p = true
    · rcases List.eq_nil_or_concat t with rfl | ⟨t0, l, ht⟩
      · exact ⟨[], [], codePoints (p :: post1), by simp, by simp [codePoints], by simp⟩
      · rw [List.concat_eq_append] at ht
        subst ht
        by_cases hl : isHighSurrogate l = true
        · refine ⟨codePoints t0, [l],
            (65536 + (l - 55296) * 1024 + (p - 56320)) :: codePoints post1, ?_, ?_, ?_⟩
          · rw [List.append_assoc, codePoints_append_of_not_low t0 _ (by
              intro h rest he
              simp only [List.singleton_append, List.cons.injEq] at he
              rw [← he.1]
              exact not_low_of_high l hl)]
            simp [codePoints, hl, hp]
          · rw [codePoints_append_of_not_low t0 [l] (by
              intro h rest he
              simp only [List.cons.injEq] at he
              rw [← he.1]
              exact not_low_of_high l hl)]
            simp [codePoints]
          · intro c hc
            rw [List.mem_singleton.1 hc]
            exact surrogate_of_high l hl
        · refine ⟨codePoints (t0 ++ [l]), [], codePoints (p :: post1), ?_, by simp, by simp⟩
          rw [List.append_assoc, List.singleton_append]
          exact codePoints_append_of_not_high t0 l _ (by simpa using hl)
    · exact ⟨codePoints t, [], codePoints (p :: post1),
        codePoints_append_of_not_low t _ (by
          intro h rest he
          simp only [List.cons.injEq] at he
          rw [← he.1]
          simpa using hp), by simp, by simp⟩

/-- The code points of `t` inside `pre ++ t ++ post`: all of them, except that a trailing
surrogate at its start and a leading surrogate at its end may pair with a neighbour. -/
theorem codePoints_split (pre t post : JSString) :
    ∃ A a core b B : List Nat, codePoints (pre ++ t ++ post) = A ++ core ++ B
      ∧ codePoints t = a ++ core ++ b
      ∧ (∀ c ∈ a, 55296 ≤ c ∧ c ≤ 57343) ∧ (∀ c ∈ b, 55296 ≤ c ∧ c ≤ 57343) := by
  cases t with
  | nil =>
    exact ⟨codePoints (pre ++ post), [], [], [], [], by simp, by simp [codePoints],
      by simp, by simp⟩
  | cons h t1 =>
    have noMerge : codePoints (pre ++ (h :: t1) ++ post)
        = codePoints pre ++ codePoints ((h :: t1) ++ post) →
        ∃ A a core b B : List Nat, codePoints (pre ++ (h :: t1) ++ post) = A ++ core ++ B
          ∧ codePoints (h :: t1) = a ++ core ++ b
          ∧ (∀ c ∈ a, 55296 ≤ c ∧ c ≤ 57343) ∧ (∀ c ∈ b, 55296 ≤ c ∧ c ≤ 57343) := by
      intro he
      obtain ⟨core, b, B, h1, h2, h3⟩ := codePoints_split_right (h :: t1) post
      exact ⟨codePoints pre, [], core, b, B, by rw [he, h1]; simp, by simpa using h2,
        by simp, h3⟩
    by_cases hh : isLowSurrogate h = true
    · rcases List.eq_nil_or_concat pre with rfl | ⟨pre0, l, hpre⟩
      · exact noMerge (by simp [codePoints])
      · rw [List.concat_eq_append] at hpre
        subst hpre
        by_cases hl : isHighSurrogate l = true
        · obtain ⟨core, b, B, h1, h2, h3⟩ := codePoints_split_right t1 post
          refine ⟨codePoints pre0 ++ [65536 + (l - 55296) * 1024 + (h - 56320)], [h], core,
            b, B, ?_, ?_, ?_, h3⟩
          · have : pre0 ++ [l] ++ h :: t1 ++ post = pre0 ++ (l :: h :: (t1 ++ post)) := by
              simp
            rw [this, codePoints_append_of_not_low pre0 _ (by
              intro x rest he
              simp only [List.cons.injEq] at he
              rw [← he.1]
              exact not_low_of_high l hl)]
            simp [codePoints, hl, hh, h1]
          · rw [codePoints_cons_of_not_high h t1 (not_high_of_low h hh), h2]
            simp
          · intro c hc
            rw [List.mem_singleton.1 hc]
            exact surrogate_of_low h hh
        · apply noMerge
          have : pre0 ++ [l] ++ h :: t1 ++ post = pre0 ++ l :: (h :: t1 ++ post) := by simp
          rw [this]
          exact codePoints_append_of_not_high pre0 l _ (by simpa using hl)
    · apply noMerge
      have : pre ++ h :: t1 ++ post = pre ++ (h :: t1 ++ post) := by simp
      rw [this]
      exact codePoints_append_of_not_low pre _ (by
        intro x rest he
        simp only [List.cons_append, List.cons.injEq] at he
        rw [← he.1]
        simpa using hh)


theorem lowerCodePoints_append (T : CaseTable) (before x y after : List Nat) :
    lowerCodePoints T before (x ++ y) after
      = lowerCodePoints T before x (y ++ after)
        ++ lowerCodePoints T (x.reverse ++ before) y after := by
  induction x generalizing before with
  | nil => simp [lowerCodePoints]
  | cons c cs ih => simp [lowerCodePoints, ih, List.append_assoc]

theorem lowerAscii_lt (c : Nat) (h : c < 128) : lowerAscii c < 128 := by
  unfold lowerAscii
  split <;> omega

theorem lowerCodePoints_ascii (T : CaseTable) (before v cps after : List Nat)
    (hv : AllAscii v) :
    lowerCodePoints T before (v ++ cps) after
      = v.map lowerAscii ++ lowerCodePoints T (v.reverse ++ before) cps after := by
  induction v generalizing before with
  | nil => simp
  | cons c cs ih =>
    have hc : c < 128 := hv c (List.mem_cons_self _ _)
    have hcs : AllAscii cs := fun u hu => hv u (List.mem_cons_of_mem _ hu)
    simp [lowerCodePoints, lowerCodePoint, hc, ih _ hcs]

theorem codePoints_ascii_append (v s : JSString) (hv : AllAscii v) :
    codePoints (v ++ s) = v ++ codePoints s := by
  induction v with
  | nil => rfl
  | cons c cs ih =>
    have hc : c < 128 := hv c (List.mem_cons_self _ _)
    have hcs : AllAscii cs := fun u hu => hv u (List.mem_cons_of_mem _ hu)
    rw [List.cons_append, codePoints_cons_of_not_high c _ (not_high_of_ascii c hc), ih hcs]
    rfl

theorem codeUnits_of_small (v : List Nat) (hv : ∀ c ∈ v, c < 65536) : codeUnits v = v := by
  induction v with
  | nil => rfl
  | cons c cs ih =>
    have hc : c < 65536 := hv c (List.mem_cons_self _ _)
    simp [codeUnits, encodeCodePoint, hc, ih (fun u hu => hv u (List.mem_cons_of_mem _ hu))]

theorem toLowerCase_nil (T : CaseTable) : toLowerCase T [] = [] := rfl

/-- An ASCII beginning of a string is lower-cased letter by letter, whatever follows. -/
theorem toLowerCase_ascii_append (T : CaseTable) (v s : JSString) (hv : AllAscii v) :
    toLowerCase T (v ++ s)
      = v.map lowerAscii ++ codeUnits (lowerCodePoints T v.reverse (codePoints s) []) := by
  have hsmall : ∀ c ∈ v.map lowerAscii, c < 65536 := by
    intro c hc
    obtain ⟨u, hu, rfl⟩ := List.mem_map.1 hc
    have := lowerAscii_lt u (hv u hu)
    omega
  rw [toLowerCase, codePoints_ascii_append v s hv, lowerCodePoints_ascii T [] v _ [] hv,
    codeUnits_append, codeUnits_of_small _ hsmall, List.append_nil]

theorem toLowerCase_ascii (T : CaseTable) (v : JSString) (hv : AllAscii v) :
    toLowerCase T v = v.map lowerAscii := by
  have h := toLowerCase_ascii_append T v [] hv
  simpa [codePoints, lowerCodePoints, codeUnits] using h

theorem encodeCodePoint_asciiOnly (c : Nat) (h : 128 ≤ c) :
    (encodeCodePoint c).map asciiOnly = (encodeCodePoint c).map (fun _ => none) := by
  unfold encodeCodePoint
  split
  · have : ¬ c < 128 := by omega
    simp [asciiOnly, this]
  · have h1 : ¬ (55296 + (c - 65536) / 1024 % 1024 < 128) := by omega
    have h2 : ¬ (56320 + (c - 65536) % 1024 < 128) := by omega
    simp [asciiOnly, h1, h2]

/-- The neighbours of a code point change its lower-case mapping at most in a code unit
outside ASCII: the ASCII code units of the mapping, and their places, do not depend on them. -/
theorem lowerCodePoint_asciiOnly (T : CaseTable) (b1 a1 b2 a2 : List Nat) (c : Nat) :
    (codeUnits (lowerCodePoint T b1 c a1)).map asciiOnly
      = (codeUnits (lowerCodePoint T b2 c a2)).map asciiOnly := by
  unfold lowerCodePoint
  by_cases h1 : c < 128
  · simp [h1]
  · by_cases h2 : 55296 ≤ c ∧ c ≤ 57343
    · simp [h1, h2]
    · by_cases h3 : c = 931
      · have e1 : (codeUnits [962]).map asciiOnly = [none] := by decide
        have e2 : (codeUnits [963]).map asciiOnly = [none] := by decide
        subst h3
        simp only [h1, h2, if_false, if_true]
        by_cases f1 : isFinalSigma T b1 a1 = true <;>
          by_cases f2 : isFinalSigma T b2 a2 = true <;> simp [f1, f2, e1, e2]
      · simp [h1, h2, h3]

theorem lowerCodePoints_asciiOnly (T : CaseTable) (seg b1 a1 b2 a2 : List Nat) :
    (codeUnits (lowerCodePoints T b1 seg a1)).map asciiOnly
      = (codeUnits (lowerCodePoints T b2 seg a2)).map asciiOnly := by
  induction seg generalizing b1 b2 with
  | nil => rfl
  | cons c cs ih =>
    simp only [lowerCodePoints, codeUnits_append, List.map_append]
    rw [lowerCodePoint_asciiOnly T b1 (cs ++ a1) b2 (cs ++ a2) c, ih (c :: b1) (c :: b2)]

theorem lowerCodePoints_surrogates (T : CaseTable) (seg before after : List Nat)
    (h : ∀ c ∈ seg, 55296 ≤ c ∧ c ≤ 57343) :
    codeUnits (lowerCodePoints T before seg after) = seg := by
  induction seg generalizing before with
  | nil => rfl
  | cons c cs ih =>
    have hc := h c (List.mem_cons_self _ _)
    have h1 : ¬ c < 128 := by omega
    have h2 : c < 65536 := by omega
    simp [lowerCodePoints, lowerCodePoint, h1, hc, codeUnits_append, codeUnits,
      encodeCodePoint, h2, ih _ (fun u hu => h u (List.mem_cons_of_mem _ hu))]

/-- An ASCII string found in a text is found in every text with the same ASCII code units
at the same places. -/
theorem infix_of_asciiOnly_eq (k x y : JSString) (hk : AllAscii k)
    (hxy : x.map asciiOnly = y.map asciiOnly) (h : k <:+: x) : k <:+: y := by
  obtain ⟨s, t, rfl⟩ := h
  rw [List.map_append, List.map_append] at hxy
  obtain ⟨y1, y3, hy, h1, h3⟩ := List.map_eq_append_iff.1 hxy.symm
  obtain ⟨y0, y2, hy1, h0, h2⟩ := List.map_eq_append_iff.1 h1
  have hk2 : y2 = k := by
    clear hxy hy h1 h3 hy1 h0
    induction k generalizing y2 with
    | nil => simpa using h2
    | cons u us ih =>
      cases y2 with
      | nil => simp at h2
      | cons w ws =>
        simp only [List.map_cons, List.cons.injEq] at h2
        have hu : u < 128 := hk u (List.mem_cons_self _ _)
        have hw : w = u := by
          have := h2.1
          unfold asciiOnly at this
          split at this <;> simp [hu] at this
          exact this
        rw [hw, ih (fun v hv => hk v (List.mem_cons_of_mem _ hv)) ws h2.2]
  rw [hy, hy1, hk2]
  exact ⟨y0, y3, rfl⟩

theorem ascii_infix_cons (k x : JSString) (u : Nat) (hk : AllAscii k) (hu : 128 ≤ u)
    (h : k <:+: u :: x) : k <:+: x := by
  rcases List.infix_cons_iff.1 h with hp | hi
  · cases k with
    | nil => exact List.nil_infix
    | cons w ws =>
      have hw : w < 128 := hk w (List.mem_cons_self _ _)
      have : w = u := by
        obtain ⟨r, hr⟩ := hp
        simp only [List.cons_append, List.cons.injEq] at hr
        exact hr.1
      omega
  · exact hi

theorem ascii_infix_strip_left (k a x : JSString) (hk : AllAscii k)
    (ha : ∀ u ∈ a, 128 ≤ u) (h : k <:+: a ++ x) : k <:+: x := by
  induction a with
  | nil => exact h
  | cons u us ih =>
    exact ih (fun w hw => ha w (List.mem_cons_of_mem _ hw))
      (ascii_infix_cons k _ u hk (ha u (List.mem_cons_self _ _)) h)

theorem ascii_infix_strip_right (k x b : JSString) (hk : AllAscii k)
    (hb : ∀ u ∈ b, 128 ≤ u) (h : k <:+: x ++ b) : k <:+: x := by
  have h2 : k.reverse <:+: b.reverse ++ x.reverse := by
    rw [← List.reverse_append]
    exact List.reverse_infix.2 h
  have h3 := ascii_infix_strip_left k.reverse b.reverse x.reverse
    (fun u hu => hk u (List.mem_reverse.1 hu)) (fun u hu => hb u (List.mem_reverse.1 hu)) h2
  exact List.reverse_infix.1 h3

/-- An ASCII string found in the lower-cased form of a text is found in the lower-cased
form of every text made from it by adding text before and after it. -/
theorem infix_toLowerCase_append (T : CaseTable) (k pre t post : JSString)
    (hk : AllAscii k) (h : k <:+: toLowerCase T t) :
    k <:+: toLowerCase T (pre ++ t ++ post) := by
  obtain ⟨A, a, core, b, B, h1, h2, ha, hb⟩ := codePoints_split pre t post
  have hsur : ∀ (seg : List Nat), (∀ c ∈ seg, 55296 ≤ c ∧ c ≤ 57343) → ∀ u ∈ seg, 128 ≤ u :=
    fun seg hs u hu => by have := hs u hu; omega
  rw [toLowerCase, h2, lowerCodePoints_append, lowerCodePoints_append, codeUnits_append,
    codeUnits_append, lowerCodePoints_surrogates T a _ _ ha,
    lowerCodePoints_surrogates T b _ _ hb] at h
  have hcore := ascii_infix_strip_right k _ b hk (hsur b hb)
    (ascii_infix_strip_left k a _ hk (hsur a ha) (by simpa [List.append_assoc] using h))
  rw [toLowerCase, h1, lowerCodePoints_append, lowerCodePoints_append, codeUnits_append,
    codeUnits_append]
  have := infix_of_asciiOnly_eq k _ _ hk
    (lowerCodePoints_asciiOnly T core _ _ (A.reverse ++ []) (B ++ [])) hcore
  exact this.trans (List.infix_append _ _ _)

set_option maxRecDepth 100000 in
/-- The lower-casing at the table of Unicode 14 on letters outside ASCII: "É" gives "é",
the Kelvin sign gives "k", the dotted capital I gives "i" and a combining dot, a capital
sigma at the end of a word gives the final sigma, and a capital Deseret letter, which
takes two code units, gives the small one. -/
theorem toLowerCase_unicodeCase_examples :
    toLowerCase unicodeCase (utf16 "ÉCOLE") = utf16 "école"
    ∧ toLowerCase unicodeCase [8490] = [107]
    ∧ toLowerCase unicodeCase [304] = [105, 775]
    ∧ toLowerCase unicodeCase (utf16 "ΟΔΟΣ ΣΟΦΙΑΣ") = utf16 "οδος σοφιας"
    ∧ toLowerCase unicodeCase (utf16 "𐐀") = utf16 "𐐨"
    ∧ slice0 (utf16 "😀😀") 3 = [55357, 56832, 55357] := by
  decide


namespace TrendingFetcher

/-! ## Relevance filter and heuristic scorer -/

theorem aiKeywords_ascii : ∀ k ∈ aiKeywords, AllAscii k := by decide

theorem scoreKeywords_ascii : ∀ k ∈ highValueKeywords ++ trendingTerms, AllAscii k := by decide

theorem foldl_add_eq_countP (p : JSString → Bool) (c : Nat) (l : List JSString) (init : Nat) :
    l.foldl (fun score k => if p k = true then score + c else score) init
      = init + c * l.countP p := by
  induction l generalizing init with
  | nil => simp
  | cons k ks ih =>
    rw [List.foldl_cons, ih, List.countP_cons]
    by_cases hk : p k = true
    · simp [hk]; ring
    · simp [hk]

theorem calculateRelevanceScore_eq (T : CaseTable) (title : JSString) :
    calculateRelevanceScore T title
      = 2 * highValueKeywords.countP (fun k => includes (toLowerCase T title) k)
        + 3 * trendingTerms.countP (fun k => includes (toLowerCase T title) k) := by
  simp only [calculateRelevanceScore]
  rw [foldl_add_eq_countP (fun k => includes (toLowerCase T title) k) 2,
    foldl_add_eq_countP (fun k => includes (toLowerCase T title) k) 3]
  ring

/-- The score does not decrease from a title to one whose lower-cased form contains every
scoring keyword that the lower-cased form of the first contains. -/
theorem calculateRelevanceScore_le (T : CaseTable) (t u : JSString)
    (h : ∀ k ∈ highValueKeywords ++ trendingTerms,
      k <:+: toLowerCase T t → k <:+: toLowerCase T u) :
    calculateRelevanceScore T t ≤ calculateRelevanceScore T u := by
  rw [calculateRelevanceScore_eq, calculateRelevanceScore_eq]
  have h1 : highValueKeywords.countP (fun k => includes (toLowerCase T t) k)
      ≤ highValueKeywords.countP (fun k => includes (toLowerCase T u) k) := by
    apply List.countP_mono_left
    intro k hk hin
    exact (includes_iff _ _).2 (h k (List.mem_append_left _ hk) ((includes_iff _ _).1 hin))
  have h2 : trendingTerms.countP (fun k => includes (toLowerCase T t) k)
      ≤ trendingTerms.countP (fun k => includes (toLowerCase T u) k) := by
    apply List.countP_mono_left
    intro k hk hin
    exact (includes_iff _ _).2 (h k (List.mem_append_right _ hk) ((includes_iff _ _).1 hin))
  omega

/-- C7: for every case table, `isAIRelated` is true exactly when the lower-cased title
contains one of the 27 configured keywords as a substring; a title containing a text
whose lower-cased form is a keyword, so a keyword in any letter case, is accepted; the
empty title is rejected. -/
theorem isAIRelated_iff_keyword (T : CaseTable) :
    aiKeywords.length = 27
    ∧ (∀ title : JSString, isAIRelated T title = true ↔
        ∃ keyword ∈ aiKeywords, keyword <:+: toLowerCase T title)
    ∧ (∀ pre variant post : JSString, toLowerCase T variant ∈ aiKeywords →
        isAIRelated T (pre ++ variant ++ post) = true)
    ∧ isAIRelated T [] = false := by
  refine ⟨rfl, ?_, ?_, rfl⟩
  · intro title
    simp only [isAIRelated, List.any_eq_true, includes_iff]
  · intro pre variant post hmem
    simp only [isAIRelated, List.any_eq_true, includes_iff]
    exact ⟨toLowerCase T variant, hmem,
      infix_toLowerCase_append T _ pre variant post (aiKeywords_ascii _ hmem)
        (List.infix_refl _)⟩

/-- The statement of C7 at the case table of Unicode 14: the title "The OPENAI story"
holds the keyword "openai" in capitals and is accepted, and so is "YAPAY ZEKA: AİLE", whose
lower-cased form holds "ai" because the dotted capital I becomes an `i` and a dot. -/
theorem isAIRelated_iff_keyword_witness :
    toLowerCase unicodeCase (utf16 "OPENAI") ∈ aiKeywords
    ∧ isAIRelated unicodeCase (utf16 "The " ++ utf16 "OPENAI" ++ utf16 " story") = true
    ∧ isAIRelated unicodeCase (utf16 "YAPAY ZEKA: AİLE") = true :=
  ⟨by decide, (isAIRelated_iff_keyword unicodeCase).2.2.1 _ (utf16 "OPENAI") _ (by decide),
    by decide⟩

/-- C8: for every case table, the heuristic score is twice the number of high-value
keywords contained in the lower-cased title plus three times the number of trending terms
contained in it. -/
theorem calculateRelevanceScore_formula (T : CaseTable) (title : JSString) :
    calculateRelevanceScore T title
      = 2 * highValueKeywords.countP (fun k => decide (k <:+: toLowerCase T title))
        + 3 * trendingTerms.countP (fun k => decide (k <:+: toLowerCase T title))
    ∧ highValueKeywords
        = ["breakthrough", "new", "latest", "revolutionary", "major", "announces"].map utf16
    ∧ trendingTerms
        = ["openai", "chatgpt", "gemini", "claude", "midjourney", "nvidia"].map utf16 := by
  refine ⟨?_, rfl, rfl⟩
  rw [calculateRelevanceScore_eq]
  have h : (fun k : JSString => includes (toLowerCase T title) k)
      = (fun k : JSString => decide (k <:+: toLowerCase T title)) := by
    funext k
    rw [Bool.eq_iff_iff, includes_iff, decide_eq_true_iff]
  rw [h]

/-- The heuristic score of a title with a dotted capital I after "OPENA": its lower-cased
form is "openai" followed by a combining dot, so the term "openai" counts. -/
theorem calculateRelevanceScore_dotted_capital :
    toLowerCase unicodeCase (utf16 "OPENAİ duyurdu") = utf16 "openai" ++ 775 :: utf16 " duyurdu"
    ∧ calculateRelevanceScore unicodeCase (utf16 "OPENAİ duyurdu") = 3 := by
  decide

/-- C9 (as amended): for every case table, the heuristic score is non-negative, and it
does not decrease from a title to one whose lower-cased form contains every scoring
keyword the first one contains; in particular not when text is added before or after
the title. -/
theorem calculateRelevanceScore_mono (T : CaseTable) :
    (∀ t : JSString, (0 : Int) ≤ (calculateRelevanceScore T t : Int))
    ∧ (∀ t u : JSString,
        (∀ k ∈ highValueKeywords ++ trendingTerms,
          k <:+: toLowerCase T t → k <:+: toLowerCase T u) →
        calculateRelevanceScore T t ≤ calculateRelevanceScore T u)
    ∧ (∀ pre t post : JSString,
        calculateRelevanceScore T t ≤ calculateRelevanceScore T (pre ++ t ++ post)) := by
  refine ⟨fun t => Int.natCast_nonneg _, calculateRelevanceScore_le T, ?_⟩
  intro pre t post
  exact calculateRelevanceScore_le T t _ (fun k hk hin =>
    infix_toLowerCase_append T k pre t post (scoreKeywords_ascii k hk) hin)

/-- The amended C9 at two titles: "brand new openai" contains every scoring keyword of
"new ai", so it scores at least as much. -/
theorem calculateRelevanceScore_mono_witness :
    calculateRelevanceScore unicodeCase (utf16 "new ai")
      ≤ calculateRelevanceScore unicodeCase (utf16 "brand new openai") :=
  (calculateRelevanceScore_mono unicodeCase).2.1 _ _ (by decide)

/-- C9 (counterexample): "Nvi new dia chips" is "Nvidia chips" with the text " new " added
inside it, and it scores 2 where "Nvidia chips" scores 3. -/
theorem calculateRelevanceScore_inserted_text :
    utf16 "Nvidia chips" = utf16 "Nvi" ++ utf16 "dia chips"
    ∧ utf16 "Nvi new dia chips" = utf16 "Nvi" ++ utf16 " new " ++ utf16 "dia chips"
    ∧ calculateRelevanceScore unicodeCase (utf16 "Nvidia chips") = 3
    ∧ calculateRelevanceScore unicodeCase (utf16 "Nvi new dia chips") = 2 := by
  decide

end TrendingFetcher

namespace TrendingFetcher

/-! ## Ranking -/

/-- The score the matching step gives a title when every reply entry has a string title:
the score of the first entry whose lower-cased title contains the given code units, and 0
when there is none. -/
theorem findMatch_ok (T : CaseTable) (pfx : JSString) (entries : List ReplyEntry)
    (hwf : ∀ e ∈ entries, e.title ≠ none) :
    findMatch T pfx entries = .ok (entries.find? (fun e =>
      match e.title with
      | some t => decide (pfx <:+: toLowerCase T t)
      | none => false)) := by
  induction entries with
  | nil => rfl
  | cons e es ih =>
    have he : e.title ≠ none := hwf e (List.mem_cons_self _ _)
    have hes : ∀ x ∈ es, x.title ≠ none := fun x hx => hwf x (List.mem_cons_of_mem _ hx)
    cases ht : e.title with
    | none => exact absurd ht he
    | some t =>
      by_cases hin : includes (toLowerCase T t) pfx = true
      · have hd : pfx <:+: toLowerCase T t := (includes_iff _ _).1 hin
        simp [findMatch, ht, hin, List.find?_cons, hd, pure, Except.pure]
      · have hd : ¬ pfx <:+: toLowerCase T t := fun h => hin ((includes_iff _ _).2 h)
        simp [findMatch, ht, hin, List.find?_cons, hd, ih hes]

theorem mapRescore_array_nil (T : CaseTable) (trends : List TrendItem) :
    mapRescore T (.array []) trends
      = .ok (trends.map (fun t => { t with score := some 0 })) := by
  induction trends with
  | nil => rfl
  | cons t ts ih => simp [mapRescore, rescore, findMatch, ih, pure, Except.pure]

theorem mapRescore_array (T : CaseTable) (entries : List ReplyEntry)
    (hwf : ∀ e ∈ entries, e.title ≠ none) (trends : List TrendItem) :
    mapRescore T (.array entries) trends
      = .ok (trends.map (fun t => { t with score := specScore T entries t.title })) := by
  induction trends with
  | nil => rfl
  | cons t ts ih =>
    simp only [mapRescore, rescore, findMatch_ok T _ entries hwf, ih, List.map_cons]
    cases h : entries.find? (fun e =>
      match e.title with
      | some s => decide (slice0 (toLowerCase T t.title) 20 <:+: toLowerCase T s)
      | none => false) with
    | none =>
      have h2 := h
      simp only [slice0] at h2
      simp [specScore, h2, pure, Except.pure]
    | some m =>
      have h2 := h
      simp only [slice0] at h2
      simp [specScore, h2, pure, Except.pure]

theorem scoreWithGemini_of_parse_none (T : CaseTable)
    (jsonParse : JSString → Option ParsedReply) (text : JSString) (trends : List TrendItem)
    (hparse : jsonParse (cleanReply text) = none) :
    scoreWithGemini T jsonParse (.text text) trends
      = trends.map (fun t => { t with score := some 0 }) := by
  simp [scoreWithGemini, scoreWithGeminiBody, hparse, mapRescore_array_nil]

theorem scoreWithGemini_of_parse_array (T : CaseTable)
    (jsonParse : JSString → Option ParsedReply) (text : JSString)
    (entries : List ReplyEntry) (trends : List TrendItem)
    (hparse : jsonParse (cleanReply text) = some (.array entries))
    (hwf : ∀ e ∈ entries, e.title ≠ none) :
    scoreWithGemini T jsonParse (.text text) trends
      = trends.map (fun t => { t with score := specScore T entries t.title }) := by
  simp [scoreWithGemini, scoreWithGeminiBody, hparse, mapRescore_array T entries hwf]

/-- C1 (as amended): when the cleaned reply text fails JSON parsing, `scoreWithGemini`
returns the input items in order with every score replaced by 0. -/
theorem scoreWithGemini_unparseable (T : CaseTable)
    (jsonParse : JSString → Option ParsedReply) (text : JSString)
    (trends : List TrendItem) (hparse : jsonParse (cleanReply text) = none) :
    scoreWithGemini T jsonParse (.text text) trends
      = trends.map (fun t => { t with score := some 0 }) :=
  scoreWithGemini_of_parse_none T jsonParse text trends hparse

/-- The amended C1 at a reply that is plain prose: both items keep their place and get 0. -/
theorem scoreWithGemini_unparseable_witness :
    exampleParse (cleanReply (utf16 "Sorry, I cannot rank these.")) = none
    ∧ scoreWithGemini unicodeCase exampleParse (.text (utf16 "Sorry, I cannot rank these."))
        [exampleNewsItem, exampleForumItem]
      = [exampleNewsItem, exampleForumItem].map (fun t => { t with score := some 0 }) :=
  ⟨by decide, scoreWithGemini_unparseable _ _ _ _ (by decide)⟩

/-- C1 (counterexample): an unparseable reply turns a heuristic score of 7 into 0. -/
theorem scoreWithGemini_unparseable_zeroes :
    exampleParse (cleanReply (utf16 "Sorry, I cannot rank these.")) = none
    ∧ exampleNewsItem.score = some 7
    ∧ (scoreWithGemini unicodeCase exampleParse (.text (utf16 "Sorry, I cannot rank these."))
        [exampleNewsItem]).map (fun t => t.score) = [some 0]
    ∧ (some 0 : JSNum) ≠ some 7 := by
  refine ⟨by decide, rfl, ?_, by norm_num⟩
  rw [scoreWithGemini_of_parse_none _ _ _ _ (by decide)]
  rfl

theorem scoreWithGemini_of_throw (T : CaseTable) (jsonParse : JSString → Option ParsedReply)
    (trends : List TrendItem) :
    scoreWithGemini T jsonParse .throws trends = trends := rfl

/-- C2: when the ranking call throws, the body of the outer `try` ends in the error, the
`catch` absorbs it, and `scoreWithGemini` returns exactly its input list. -/
theorem scoreWithGemini_throws (T : CaseTable) (jsonParse : JSString → Option ParsedReply)
    (trends : List TrendItem) :
    scoreWithGeminiBody T jsonParse .throws trends = .error ()
    ∧ scoreWithGemini T jsonParse .throws trends = trends := by
  constructor
  · rfl
  · rw [scoreWithGemini_of_throw]

theorem toLowerCase_gemini (T : CaseTable) :
    toLowerCase T (utf16 "Gemini 2.0") = utf16 "gemini 2.0" := by
  rw [toLowerCase_ascii T _ (by decide)]
  decide

theorem take20_of_gemini_title (T : CaseTable) (title : JSString)
    (hstart : utf16 "Gemini 2.0 beats humans" <+: title) :
    (toLowerCase T title).take 20 = utf16 "gemini 2.0 beats hum" := by
  obtain ⟨rest, hrest⟩ := hstart
  rw [← hrest, toLowerCase_ascii_append T _ rest (by decide),
    List.take_append_of_le_length (by decide)]
  decide

/-- C4: for every case table and a reply that parses to an array of entries with string
titles, the result is the input list, in order, with only the score of each item replaced,
by the score of the first entry whose lower-cased title contains the first 20 UTF-16 code
units of the item's lower-cased title and by 0 when no entry does. -/
theorem scoreWithGemini_parsed (T : CaseTable) (jsonParse : JSString → Option ParsedReply)
    (text : JSString) (entries : List ReplyEntry) (trends : List TrendItem)
    (hparse : jsonParse (cleanReply text) = some (.array entries))
    (hwf : ∀ e ∈ entries, e.title ≠ none) :
    scoreWithGemini T jsonParse (.text text) trends
        = trends.map (fun t => { t with score := specScore T entries t.title })
    ∧ (scoreWithGemini T jsonParse (.text text) trends).length = trends.length := by
  rw [scoreWithGemini_of_parse_array T jsonParse text entries trends hparse hwf]
  exact ⟨rfl, List.length_map _ _⟩

/-- The statement of C4 at the fenced example reply and two items: the reply title
"gemini 2.0" contains the whole lower-cased title of the item "GEMINI 2.0", which takes the
entry's score 9 in place of its 3, and it does not contain "openai announces bre", so the
news item gets 0. -/
theorem scoreWithGemini_parsed_witness :
    exampleParse (cleanReply exampleReplyText)
        = some (.array [{ title := some (utf16 "Gemini 2.0"), score := some 9 }])
    ∧ (∀ e ∈ [({ title := some (utf16 "Gemini 2.0"), score := some 9 } : ReplyEntry)],
        e.title ≠ none)
    ∧ (scoreWithGemini unicodeCase exampleParse (.text exampleReplyText)
          [exampleShortItem, exampleNewsItem]
        = [exampleShortItem, exampleNewsItem].map (fun t =>
            { t with
              score :=
                specScore unicodeCase
                  [{ title := some (utf16 "Gemini 2.0"), score := some 9 }] t.title })
      ∧ (scoreWithGemini unicodeCase exampleParse (.text exampleReplyText)
          [exampleShortItem, exampleNewsItem]).length
          = [exampleShortItem, exampleNewsItem].length)
    ∧ [exampleShortItem, exampleNewsItem].map (fun t =>
          specScore unicodeCase
            [{ title := some (utf16 "Gemini 2.0"), score := some 9 }] t.title)
        = [some 9, some 0]
    ∧ exampleShortItem.score = some 3 :=
  ⟨by decide, by simp,
    scoreWithGemini_parsed unicodeCase exampleParse exampleReplyText _
      [exampleShortItem, exampleNewsItem] (by decide) (by simp),
    by decide, rfl⟩

/-- C3 (as amended): with the parsed reply `[{"title":"Gemini 2.0","score":9}]`, every item
gets 9 when the first 20 code units of its lower-cased title occur in "gemini 2.0" and 0
otherwise; an item whose title starts with "Gemini 2.0 beats humans" gets 0. -/
theorem scoreWithGemini_gemini_reply (T : CaseTable)
    (jsonParse : JSString → Option ParsedReply) (text : JSString) (trends : List TrendItem)
    (hparse : jsonParse (cleanReply text)
      = some (.array [{ title := some (utf16 "Gemini 2.0"), score := some 9 }])) :
    scoreWithGemini T jsonParse (.text text) trends
        = trends.map (fun t =>
            { t with
              score :=
                if (toLowerCase T t.title).take 20 <:+: utf16 "gemini 2.0" then some 9
                else some 0 })
    ∧ ∀ t : TrendItem, utf16 "Gemini 2.0 beats humans" <+: t.title →
        ¬ ((toLowerCase T t.title).take 20 <:+: utf16 "gemini 2.0") := by
  constructor
  · rw [scoreWithGemini_of_parse_array T jsonParse text _ trends hparse (by simp)]
    apply List.map_congr_left
    intro t _
    by_cases h : (toLowerCase T t.title).take 20 <:+: utf16 "gemini 2.0"
    · simp [specScore, toLowerCase_gemini, h]
    · simp [specScore, toLowerCase_gemini, h]
  · intro t hstart
    rw [take20_of_gemini_title T t.title hstart]
    decide

/-- The amended C3 at the fenced example reply and the two example items. -/
theorem scoreWithGemini_gemini_reply_witness :
    exampleParse (cleanReply exampleReplyText)
        = some (.array [{ title := some (utf16 "Gemini 2.0"), score := some 9 }])
    ∧ (scoreWithGemini unicodeCase exampleParse (.text exampleReplyText)
          [exampleForumItem, exampleNewsItem]
        = [exampleForumItem, exampleNewsItem].map (fun t =>
            { t with
              score :=
                if (toLowerCase unicodeCase t.title).take 20 <:+: utf16 "gemini 2.0" then some 9
                else some 0 })
      ∧ ∀ t : TrendItem, utf16 "Gemini 2.0 beats humans" <+: t.title →
          ¬ ((toLowerCase unicodeCase t.title).take 20 <:+: utf16 "gemini 2.0")) :=
  ⟨by decide,
    scoreWithGemini_gemini_reply unicodeCase exampleParse exampleReplyText _ (by decide)⟩

/-- C3 (counterexample): with the parsed reply `[{"title":"Gemini 2.0","score":9}]`, the
item titled "Gemini 2.0 beats humans at chess" ends with score 0, not 9. -/
theorem scoreWithGemini_gemini_reply_zero :
    exampleParse (cleanReply exampleReplyText)
        = some (.array [{ title := some (utf16 "Gemini 2.0"), score := some 9 }])
    ∧ utf16 "Gemini 2.0 beats humans" <+: exampleForumItem.title
    ∧ (scoreWithGemini unicodeCase exampleParse (.text exampleReplyText)
        [exampleForumItem, exampleNewsItem]).map (fun t => t.score) = [some 0, some 0]
    ∧ (some 0 : JSNum) ≠ some 9 := by
  refine ⟨by decide, by decide, ?_, by norm_num⟩
  rw [scoreWithGemini_of_parse_array unicodeCase exampleParse exampleReplyText
    [{ title := some (utf16 "Gemini 2.0"), score := some 9 }] _ (by decide) (by simp)]
  decide

end TrendingFetcher

/-! ## Sorting -/

theorem mem_sortInsert {α : Type} (cmp : α → α → JSNum) (x z : α) (l : List α) :
    z ∈ sortInsert cmp x l ↔ z = x ∨ z ∈ l := by
  induction l with
  | nil => simp [sortInsert]
  | cons y ys ih =>
    by_cases h : sortCompare cmp x y ≤ 0
    · simp [sortInsert, h]
    · simp only [sortInsert, h, if_false, List.mem_cons, ih]
      tauto

theorem sortInsert_perm {α : Type} (cmp : α → α → JSNum) (x : α) (l : List α) :
    (sortInsert cmp x l).Perm (x :: l) := by
  induction l with
  | nil => exact List.Perm.refl _
  | cons y ys ih =>
    by_cases h : sortCompare cmp x y ≤ 0
    · simp [sortInsert, h]
    · simp only [sortInsert, h, if_false]
      exact (List.Perm.cons y ih).trans (List.Perm.swap x y ys)

theorem arraySort_perm {α : Type} (cmp : α → α → JSNum) (l : List α) :
    (arraySort cmp l).Perm l := by
  induction l with
  | nil => exact List.Perm.refl _
  | cons x xs ih => exact (sortInsert_perm cmp x _).trans (List.Perm.cons x ih)

/-- Inserting into a sorted list keeps it sorted, for a comparator that agrees on the
elements at hand (those satisfying `P`) with a total and transitive relation `R`. -/
theorem sortInsert_pairwise {α : Type} (cmp : α → α → JSNum) (R : α → α → Prop)
    (P : α → Prop)
    (hle : ∀ a b, P a → P b → sortCompare cmp a b ≤ 0 → R a b)
    (hgt : ∀ a b, P a → P b → ¬ sortCompare cmp a b ≤ 0 → R b a)
    (htrans : ∀ a b c, P a → P b → P c → R a b → R b c → R a c)
    (x : α) (l : List α) (hx : P x) (hl : ∀ y ∈ l, P y) (hs : l.Pairwise R) :
    (sortInsert cmp x l).Pairwise R := by
  induction l with
  | nil => simp [sortInsert]
  | cons y ys ih =>
    have hy : P y := hl y (List.mem_cons_self _ _)
    have hys : ∀ z ∈ ys, P z := fun z hz => hl z (List.mem_cons_of_mem _ hz)
    rw [List.pairwise_cons] at hs
    by_cases h : sortCompare cmp x y ≤ 0
    · have hxy : R x y := hle x y hx hy h
      simp only [sortInsert, h, if_true]
      refine List.Pairwise.cons ?_ (List.Pairwise.cons hs.1 hs.2)
      intro z hz
      rcases List.mem_cons.1 hz with rfl | hz
      · exact hxy
      · exact htrans x y z hx hy (hys z hz) hxy (hs.1 z hz)
    · simp only [sortInsert, h, if_false]
      refine List.Pairwise.cons ?_ (ih hys hs.2)
      intro z hz
      rcases (mem_sortInsert cmp x z ys).1 hz with rfl | hz
      · exact hgt _ _ hx hy h
      · exact hs.1 z hz

theorem arraySort_pairwise {α : Type} (cmp : α → α → JSNum) (R : α → α → Prop)
    (P : α → Prop)
    (hle : ∀ a b, P a → P b → sortCompare cmp a b ≤ 0 → R a b)
    (hgt : ∀ a b, P a → P b → ¬ sortCompare cmp a b ≤ 0 → R b a)
    (htrans : ∀ a b c, P a → P b → P c → R a b → R b c → R a c)
    (l : List α) (hl : ∀ y ∈ l, P y) : (arraySort cmp l).Pairwise R := by
  induction l with
  | nil => simp [arraySort]
  | cons x xs ih =>
    have hxs : ∀ y ∈ xs, P y := fun y hy => hl y (List.mem_cons_of_mem _ hy)
    refine sortInsert_pairwise cmp R P hle hgt htrans x _ (hl x (List.mem_cons_self _ _)) ?_
      (ih hxs)
    intro y hy
    exact hxs y ((arraySort_perm cmp xs).mem_iff.1 hy)

namespace TrendingFetcher

theorem compare_le_imp_order (a b : TrendItem) (ha : WellFormed a) (hb : WellFormed b)
    (h : sortCompare compareFn a b ≤ 0) : inOutputOrder a b = true := by
  obtain ⟨t1, u1, s1, ts1, sc1⟩ := a
  obtain ⟨t2, u2, s2, ts2, sc2⟩ := b
  cases sc1 with
  | none => exact absurd rfl ha.1
  | some p =>
  cases sc2 with
  | none => exact absurd rfl hb.1
  | some q =>
  cases ts1 with
  | none => exact absurd rfl ha.2
  | some m =>
  cases ts2 with
  | none => exact absurd rfl hb.2
  | some n =>
    simp only [sortCompare, compareFn, jsSub, dateValue] at h
    simp only [inOutputOrder, jsGt, jsEq, jsGe, dateValue, Bool.or_eq_true, Bool.and_eq_true,
      decide_eq_true_eq]
    by_cases hpq : q - p = 0
    · have hqp : p = q := by linarith
      simp [hpq] at h
      right
      exact ⟨hqp, by exact_mod_cast h⟩
    · have hne : (some (q - p) : JSNum) ≠ some 0 := by simpa using hpq
      simp [hne] at h
      left
      rcases lt_or_eq_of_le h with h1 | h1
      · linarith
      · exact absurd (by linarith) hpq

theorem compare_gt_imp_order (a b : TrendItem) (ha : WellFormed a) (hb : WellFormed b)
    (h : ¬ sortCompare compareFn a b ≤ 0) : inOutputOrder b a = true := by
  obtain ⟨t1, u1, s1, ts1, sc1⟩ := a
  obtain ⟨t2, u2, s2, ts2, sc2⟩ := b
  cases sc1 with
  | none => exact absurd rfl ha.1
  | some p =>
  cases sc2 with
  | none => exact absurd rfl hb.1
  | some q =>
  cases ts1 with
  | none => exact absurd rfl ha.2
  | some m =>
  cases ts2 with
  | none => exact absurd rfl hb.2
  | some n =>
    simp only [sortCompare, compareFn, jsSub, dateValue] at h
    simp only [inOutputOrder, jsGt, jsEq, jsGe, dateValue, Bool.or_eq_true, Bool.and_eq_true,
      decide_eq_true_eq]
    by_cases hpq : q - p = 0
    · have hqp : q = p := by linarith
      simp [hpq] at h
      right
      exact ⟨hqp, by exact_mod_cast h.le⟩
    · have hne : (some (q - p) : JSNum) ≠ some 0 := by simpa using hpq
      simp [hne] at h
      left
      linarith

theorem inOutputOrder_trans (a b c : TrendItem) (ha : WellFormed a) (hb : WellFormed b)
    (hc : WellFormed c) (hab : inOutputOrder a b = true) (hbc : inOutputOrder b c = true) :
    inOutputOrder a c = true := by
  obtain ⟨t1, u1, s1, ts1, sc1⟩ := a
  obtain ⟨t2, u2, s2, ts2, sc2⟩ := b
  obtain ⟨t3, u3, s3, ts3, sc3⟩ := c
  cases sc1 with
  | none => exact absurd rfl ha.1
  | some p =>
  cases sc2 with
  | none => exact absurd rfl hb.1
  | some q =>
  cases sc3 with
  | none => exact absurd rfl hc.1
  | some r =>
  cases ts1 with
  | none => exact absurd rfl ha.2
  | some k =>
  cases ts2 with
  | none => exact absurd rfl hb.2
  | some m =>
  cases ts3 with
  | none => exact absurd rfl hc.2
  | some n =>
    simp only [inOutputOrder, jsGt, jsEq, jsGe, dateValue, Bool.or_eq_true, Bool.and_eq_true,
      decide_eq_true_eq] at hab hbc ⊢
    rcases hab with h1 | ⟨h1, h2⟩ <;> rcases hbc with h3 | ⟨h3, h4⟩
    · left; linarith
    · left; linarith
    · left; linarith
    · right; exact ⟨h1.trans h3, le_trans h4 h2⟩

theorem arraySort_ordered (l : List TrendItem) (hl : ∀ x ∈ l, WellFormed x) :
    (arraySort compareFn l).Pairwise (fun a b => inOutputOrder a b = true) :=
  arraySort_pairwise compareFn (fun a b => inOutputOrder a b = true) WellFormed
    compare_le_imp_order compare_gt_imp_order inOutputOrder_trans l hl

theorem pairwise_adjacent {α : Type} (R : α → α → Prop) (l : List α) (h : l.Pairwise R)
    (i : Nat) (a b : α) (ha : l[i]? = some a) (hb : l[i + 1]? = some b) : R a b := by
  rw [List.pairwise_iff_getElem] at h
  obtain ⟨hi, rfl⟩ := List.getElem?_eq_some.1 ha
  obtain ⟨hj, rfl⟩ := List.getElem?_eq_some.1 hb
  exact h i (i + 1) hi hj (Nat.lt_succ_self i)

/-- C5 (as amended): when every item of the merged, ranked list has a numeric score and a
valid timestamp, `fetchTrends` returns at most 5 items, every adjacent pair of them is in
the stated order, and the result is the first `min 5 n` items of a rearrangement of the
ranked list that is sorted by that order. -/
theorem fetchTrends_sorted (T : CaseTable) (net : String → Nat → Except Unit ResponseData) (now : Int)
    (jsonParse : JSString → Option ParsedReply) (call : RankingCall)
    (hvalid : ∀ x ∈ scoreWithGemini T jsonParse call (collectTrends net now (sources T) []),
      x.score ≠ none ∧ x.timestamp ≠ none) :
    (fetchTrends T net now jsonParse call).length ≤ 5
    ∧ (∀ (i : Nat) (a b : TrendItem),
        (fetchTrends T net now jsonParse call)[i]? = some a →
        (fetchTrends T net now jsonParse call)[i + 1]? = some b →
        inOutputOrder a b = true)
    ∧ ∃ sorted : List TrendItem,
        sorted.Perm (scoreWithGemini T jsonParse call (collectTrends net now (sources T) []))
        ∧ sorted.Pairwise (fun a b => inOutputOrder a b = true)
        ∧ fetchTrends T net now jsonParse call
          = sorted.take (min 5
              (scoreWithGemini T jsonParse call (collectTrends net now (sources T) [])).length) := by
  have hs := arraySort_ordered _ hvalid
  have hp := arraySort_perm compareFn
    (scoreWithGemini T jsonParse call (collectTrends net now (sources T) []))
  refine ⟨?_, ?_, _, hp, hs, ?_⟩
  · simp only [fetchTrends, List.length_take]
    exact Nat.min_le_left _ _
  · intro i a b ha hb
    exact pairwise_adjacent _ _ (List.Pairwise.take hs) i a b ha hb
  · simp only [fetchTrends]
    rw [← hp.length_eq, List.take_eq_take]
    simp

theorem collectTrends_scenario (T : CaseTable) (news forum : ResponseData) (now : Int) :
    collectTrends (scenarioNet news forum) now (sources T) []
      = parseGoogleNews T now news ++ parseHackerNews T forum := by
  have h : forumUrl ≠ newsUrl := by decide
  simp [collectTrends, sources, retryWrapper, retryLoop, fetchFromSource, scenarioNet, h,
    pure, Except.pure]

/-- C5 (counterexample): two equally scored items, the second with an invalid date, are
returned next to each other although neither order of the pair satisfies the stated
ordering. -/
theorem fetchTrends_invalid_date :
    fetchTrends unicodeCase (scenarioNet undatedNews emptyPayload) 0 exampleParse .throws
      = [{ title := utf16 "AI chips", url := "", source := "NewsAPI", timestamp := some 5,
           score := some 0 },
         { title := utf16 "AI labs", url := "", source := "NewsAPI", timestamp := none,
           score := some 0 }]
    ∧ inOutputOrder
        { title := utf16 "AI chips", url := "", source := "NewsAPI", timestamp := some 5,
          score := some 0 }
        { title := utf16 "AI labs", url := "", source := "NewsAPI", timestamp := none,
          score := some 0 } = false
    ∧ inOutputOrder
        { title := utf16 "AI labs", url := "", source := "NewsAPI", timestamp := none,
          score := some 0 }
        { title := utf16 "AI chips", url := "", source := "NewsAPI", timestamp := some 5,
          score := some 0 } = false := by
  have h1 : isAIRelated unicodeCase (utf16 "AI chips") = true := by decide
  have h2 : isAIRelated unicodeCase (utf16 "AI labs") = true := by decide
  have h3 : calculateRelevanceScore unicodeCase (utf16 "AI chips") = 0 := by decide
  have h4 : calculateRelevanceScore unicodeCase (utf16 "AI labs") = 0 := by decide
  refine ⟨?_, ?_, ?_⟩
  · simp only [fetchTrends, collectTrends_scenario, scoreWithGemini, scoreWithGeminiBody]
    simp [parseGoogleNews, parseGoogleNewsLoop, undatedNews, parseHackerNews, emptyPayload,
      h1, h2, h3, h4, orDefault, arraySort, sortInsert, sortCompare, compareFn, jsSub,
      dateValue, pure, Except.pure]
  · simp [inOutputOrder, jsGt, jsEq, jsGe, dateValue]
  · simp [inOutputOrder, jsGt, jsEq, jsGe, dateValue]

theorem parseGoogleNews_roundTrip (T : CaseTable) (now : Int) (link : Option String)
    (publishedAt : Option JSDate) :
    parseGoogleNews T now (roundTripNews link publishedAt)
      = [roundTripNewsItem now link publishedAt] := by
  have h1 : isAIRelated T (utf16 "OpenAI Announces Breakthrough GPT-5 Model") = true := by rfl
  have h2 : calculateRelevanceScore T (utf16 "OpenAI Announces Breakthrough GPT-5 Model") = 7 := by
    rfl
  have h0 : utf16 "OpenAI Announces Breakthrough GPT-5 Model" ≠ [] := by decide
  simp [parseGoogleNews, parseGoogleNewsLoop, roundTripNews, roundTripNewsItem, h0, h1, h2,
    pure, Except.pure]

theorem parseHackerNews_roundTrip (T : CaseTable) (link : Option String) (objectID : String)
    (created_at : JSDate) :
    parseHackerNews T (roundTripForum link objectID created_at)
      = [roundTripForumItem link objectID created_at] := by
  have h1 : isAIRelated T (utf16 "Gemini 2.0 beats humans") = true := by rfl
  have h2 : calculateRelevanceScore T (utf16 "Gemini 2.0 beats humans") = 3 := by rfl
  simp [parseHackerNews, parseHackerNewsLoop, roundTripForum, roundTripForumItem, h1, h2,
    jsAdd, jsDivConst, pure, Except.pure]
  norm_num

theorem fetchTrends_roundTrip_eq (T : CaseTable) (now : Int) (newsLink hitLink : Option String)
    (publishedAt : Option JSDate) (objectID : String) (created_at : JSDate)
    (jsonParse : JSString → Option ParsedReply) :
    fetchTrends T
        (scenarioNet (roundTripNews newsLink publishedAt)
          (roundTripForum hitLink objectID created_at))
        now jsonParse .throws
      = match created_at, publishedAt.getD (some now) with
        | some f, some n =>
          if n < f then
            [roundTripForumItem hitLink objectID created_at,
              roundTripNewsItem now newsLink publishedAt]
          else
            [roundTripNewsItem now newsLink publishedAt,
              roundTripForumItem hitLink objectID created_at]
        | _, _ =>
          [roundTripNewsItem now newsLink publishedAt,
            roundTripForumItem hitLink objectID created_at] := by
  simp only [fetchTrends, collectTrends_scenario, scoreWithGemini, scoreWithGeminiBody,
    parseGoogleNews_roundTrip, parseHackerNews_roundTrip]
  cases created_at with
  | none =>
    simp [arraySort, sortInsert, sortCompare, compareFn, jsSub, dateValue,
      roundTripNewsItem, roundTripForumItem]
  | some f =>
    cases hn : publishedAt.getD (some now) with
    | none =>
      simp [arraySort, sortInsert, sortCompare, compareFn, jsSub, dateValue,
        roundTripNewsItem, roundTripForumItem, hn]
    | some n =>
      by_cases hlt : n < f
      · have hq : ¬ ((f : ℚ) - (n : ℚ) ≤ 0) := by
          have : (n : ℚ) < (f : ℚ) := by exact_mod_cast hlt
          linarith
        simp [arraySort, sortInsert, sortCompare, compareFn, jsSub, dateValue,
          roundTripNewsItem, roundTripForumItem, hn, hlt, hq]
      · have hq : (f : ℚ) - (n : ℚ) ≤ 0 := by
          have : (f : ℚ) ≤ (n : ℚ) := by exact_mod_cast not_lt.1 hlt
          linarith
        simp [arraySort, sortInsert, sortCompare, compareFn, jsSub, dateValue,
          roundTripNewsItem, roundTripForumItem, hn, hlt, hq]

/-- C6 (as amended): in the round-trip scenario with the ranking call failing, both titles
pass `isAIRelated`, both items have heuristic score 7, and the order of the result is
decided by the timestamps: the forum item comes first exactly when both dates are valid
and the forum item's is strictly later. -/
theorem fetchTrends_roundTrip (T : CaseTable) (now : Int) (newsLink hitLink : Option String)
    (publishedAt : Option JSDate) (objectID : String) (created_at : JSDate)
    (jsonParse : JSString → Option ParsedReply) :
    isAIRelated T (utf16 "OpenAI Announces Breakthrough GPT-5 Model") = true
    ∧ isAIRelated T (utf16 "Gemini 2.0 beats humans") = true
    ∧ parseGoogleNews T now (roundTripNews newsLink publishedAt)
        = [roundTripNewsItem now newsLink publishedAt]
    ∧ parseHackerNews T (roundTripForum hitLink objectID created_at)
        = [roundTripForumItem hitLink objectID created_at]
    ∧ (roundTripNewsItem now newsLink publishedAt).score = some 7
    ∧ (roundTripForumItem hitLink objectID created_at).score = some 7
    ∧ fetchTrends T
        (scenarioNet (roundTripNews newsLink publishedAt)
          (roundTripForum hitLink objectID created_at))
        now jsonParse .throws
      = match created_at, publishedAt.getD (some now) with
        | some f, some n =>
          if n < f then
            [roundTripForumItem hitLink objectID created_at,
              roundTripNewsItem now newsLink publishedAt]
          else
            [roundTripNewsItem now newsLink publishedAt,
              roundTripForumItem hitLink objectID created_at]
        | _, _ =>
          [roundTripNewsItem now newsLink publishedAt,
            roundTripForumItem hitLink objectID created_at] :=
  ⟨by rfl, by rfl, parseGoogleNews_roundTrip T now newsLink publishedAt,
    parseHackerNews_roundTrip T hitLink objectID created_at, rfl, rfl,
    fetchTrends_roundTrip_eq T now newsLink hitLink publishedAt objectID created_at jsonParse⟩

/-- C6 (counterexample): with the article undated (so stamped with the clock, 1000) and the
hit created at 500, both items score 7 and the news item is returned first. -/
theorem fetchTrends_roundTrip_news_first :
    fetchTrends unicodeCase
        (scenarioNet (roundTripNews none none) (roundTripForum none "1" (some 500)))
        1000 exampleParse .throws
      = [roundTripNewsItem 1000 none none, roundTripForumItem none "1" (some 500)]
    ∧ jsGt (roundTripForumItem none "1" (some 500)).score
        (roundTripNewsItem 1000 none none).score = false := by
  constructor
  · rw [fetchTrends_roundTrip_eq]
    simp
  · simp [jsGt, roundTripForumItem, roundTripNewsItem]

/-- The amended C5 at the round-trip scenario with the hit created at 500 and the clock at 1000. -/
theorem fetchTrends_sorted_witness :
    (fetchTrends unicodeCase
        (scenarioNet (roundTripNews none none) (roundTripForum none "1" (some 500)))
        1000 exampleParse .throws).length ≤ 5
    ∧ (∀ (i : Nat) (a b : TrendItem),
        (fetchTrends unicodeCase
          (scenarioNet (roundTripNews none none) (roundTripForum none "1" (some 500)))
          1000 exampleParse .throws)[i]? = some a →
        (fetchTrends unicodeCase
          (scenarioNet (roundTripNews none none) (roundTripForum none "1" (some 500)))
          1000 exampleParse .throws)[i + 1]? = some b →
        inOutputOrder a b = true)
    ∧ ∃ sorted : List TrendItem,
        sorted.Perm (scoreWithGemini unicodeCase exampleParse .throws
          (collectTrends
            (scenarioNet (roundTripNews none none) (roundTripForum none "1" (some 500)))
            1000 (sources unicodeCase) []))
        ∧ sorted.Pairwise (fun a b => inOutputOrder a b = true)
        ∧ fetchTrends unicodeCase
            (scenarioNet (roundTripNews none none) (roundTripForum none "1" (some 500)))
            1000 exampleParse .throws
          = sorted.take (min 5
              (scoreWithGemini unicodeCase exampleParse .throws
                (collectTrends
                  (scenarioNet (roundTripNews none none)
                    (roundTripForum none "1" (some 500)))
                  1000 (sources unicodeCase) [])).length) :=
  fetchTrends_sorted unicodeCase _ 1000 exampleParse .throws (by
    intro x hx
    rw [scoreWithGemini_of_throw, collectTrends_scenario, parseGoogleNews_roundTrip,
      parseHackerNews_roundTrip] at hx
    simp only [List.singleton_append, List.mem_cons, List.mem_singleton, List.not_mem_nil,
      or_false] at hx
    rcases hx with rfl | rfl
    · simp [roundTripNewsItem]
    · simp [roundTripForumItem])

theorem collectTrends_all_fail (T : CaseTable) (net : String → Nat → Except Unit ResponseData) (now : Int)
    (hfail : ∀ source ∈ (sources T), ∀ attempt : Nat, 1 ≤ attempt → attempt ≤ 3 →
      net source.url attempt = .error ()) :
    collectTrends net now (sources T) [] = [] := by
  have h1 := hfail _ (List.mem_cons_self _ _)
  have h2 := hfail _ (List.mem_cons_of_mem _ (List.mem_cons_self _ _))
  simp only [sources] at h1 h2 ⊢
  simp [collectTrends, retryWrapper, retryLoop, fetchFromSource,
    h1 1 (by omega) (by omega), h1 2 (by omega) (by omega), h1 3 (by omega) (by omega),
    h2 1 (by omega) (by omega), h2 2 (by omega) (by omega), h2 3 (by omega) (by omega),
    throw, throwThe, MonadExceptOf.throw]

theorem scoreWithGemini_nil (T : CaseTable) (jsonParse : JSString → Option ParsedReply) (call : RankingCall) :
    scoreWithGemini T jsonParse call [] = [] := by
  cases call with
  | throws => rfl
  | text t =>
    simp only [scoreWithGemini, scoreWithGeminiBody]
    cases jsonParse (cleanReply t) with
    | none => rfl
    | some v => cases v <;> rfl

/-- C10: when every request of every source fails on each of its three attempts,
`fetchTrends` returns the empty list, whatever the ranking call and the parser do. -/
theorem fetchTrends_all_sources_fail (T : CaseTable) (net : String → Nat → Except Unit ResponseData)
    (now : Int) (jsonParse : JSString → Option ParsedReply) (call : RankingCall)
    (hfail : ∀ source ∈ (sources T), ∀ attempt : Nat, 1 ≤ attempt → attempt ≤ 3 →
      net source.url attempt = .error ()) :
    fetchTrends T net now jsonParse call = [] := by
  simp [fetchTrends, collectTrends_all_fail T net now hfail, scoreWithGemini_nil, arraySort]

/-- The statement of C10 at a network that fails every request and a reply of plain prose. -/
theorem fetchTrends_all_sources_fail_witness :
    fetchTrends unicodeCase (fun _ _ => .error ()) 0 exampleParse
        (.text (utf16 "no ranking today")) = [] :=
  fetchTrends_all_sources_fail unicodeCase _ 0 exampleParse _ (fun _ _ _ _ _ => rfl)

end TrendingFetcher

/-! ## Retry wrapper -/

/-- C13: `retryWrapper(fn, 3, 1000)` calls `fn` at most three times, stops at the first
success with that value, rethrows the third error when all three calls fail, and sleeps
1000 ms after the first failure and 2000 ms after the second, never after the third. -/
theorem retryWrapper_three {ε α : Type} (fn : Nat → Except ε α) :
    1 ≤ (retryWrapper fn 3 1000).calls
    ∧ (retryWrapper fn 3 1000).calls ≤ 3
    ∧ (∀ v, fn 1 = .ok v →
        (retryWrapper fn 3 1000).result = .ok v
        ∧ (retryWrapper fn 3 1000).calls = 1
        ∧ (retryWrapper fn 3 1000).delays = [])
    ∧ (∀ e1 v, fn 1 = .error e1 → fn 2 = .ok v →
        (retryWrapper fn 3 1000).result = .ok v
        ∧ (retryWrapper fn 3 1000).calls = 2
        ∧ (retryWrapper fn 3 1000).delays = [1000 * 2 ^ (1 - 1)])
    ∧ (∀ e1 e2 v, fn 1 = .error e1 → fn 2 = .error e2 → fn 3 = .ok v →
        (retryWrapper fn 3 1000).result = .ok v
        ∧ (retryWrapper fn 3 1000).calls = 3
        ∧ (retryWrapper fn 3 1000).delays = [1000 * 2 ^ (1 - 1), 1000 * 2 ^ (2 - 1)])
    ∧ (∀ e1 e2 e3, fn 1 = .error e1 → fn 2 = .error e2 → fn 3 = .error e3 →
        (retryWrapper fn 3 1000).result = .error (some e3)
        ∧ (retryWrapper fn 3 1000).calls = 3
        ∧ (retryWrapper fn 3 1000).delays = [1000 * 2 ^ (1 - 1), 1000 * 2 ^ (2 - 1)])
    ∧ [1000 * 2 ^ (1 - 1), 1000 * 2 ^ (2 - 1)] = [1000, 2000] := by
  refine ⟨?_, ?_, ?_, ?_, ?_, ?_, by decide⟩
  · cases h1 : fn 1 <;> cases h2 : fn 2 <;> cases h3 : fn 3 <;>
      simp [retryWrapper, retryLoop, h1, h2, h3]
  · cases h1 : fn 1 <;> cases h2 : fn 2 <;> cases h3 : fn 3 <;>
      simp [retryWrapper, retryLoop, h1, h2, h3]
  · intro v h1
    simp [retryWrapper, retryLoop, h1]
  · intro e1 v h1 h2
    simp [retryWrapper, retryLoop, h1, h2]
  · intro e1 e2 v h1 h2 h3
    simp [retryWrapper, retryLoop, h1, h2, h3]
  · intro e1 e2 e3 h1 h2 h3
    simp [retryWrapper, retryLoop, h1, h2, h3]

/-- The statement of C13 at an operation that times out twice and then returns 7. -/
theorem retryWrapper_three_witness :
    (retryWrapper failTwice 3 1000).result = .ok 7
    ∧ (retryWrapper failTwice 3 1000).calls = 3
    ∧ (retryWrapper failTwice 3 1000).delays
        = [1000 * 2 ^ (1 - 1), 1000 * 2 ^ (2 - 1)] :=
  (retryWrapper_three failTwice).2.2.2.2.1 "timeout" "timeout" 7 rfl rfl rfl

namespace TrendingFetcher

/-! ## Source adapters -/

theorem isAIRelated_empty (T : CaseTable) : isAIRelated T [] = false := rfl

theorem parseGoogleNewsLoop_ok (T : CaseTable) (now : Int) (articles : List ArticleEntry)
    (items : List TrendItem) (htyped : ∀ e ∈ articles, e.Typed) :
    parseGoogleNewsLoop T now articles items
      = .ok (items ++ articles.filterMap (expectedNewsItem T now)) := by
  induction articles generalizing items with
  | nil => simp [parseGoogleNewsLoop, pure, Except.pure]
  | cons e es ih =>
    have he : e.Typed := htyped e (List.mem_cons_self _ _)
    have hes : ∀ x ∈ es, x.Typed := fun x hx => htyped x (List.mem_cons_of_mem _ hx)
    cases e with
    | null => exact absurd he id
    | object a =>
      have ha : a.title ≠ .truthy := he
      cases ht : a.title with
      | truthy => exact absurd ht ha
      | falsy => simp [parseGoogleNewsLoop, ht, ih _ hes, expectedNewsItem]
      | str title =>
        by_cases hrel : isAIRelated T title = true
        · have hne : title ≠ [] := by
            intro h
            rw [h, isAIRelated_empty] at hrel
            exact Bool.false_ne_true hrel
          simp [parseGoogleNewsLoop, ht, hrel, hne, ih _ hes, expectedNewsItem]
        · simp [parseGoogleNewsLoop, ht, hrel, ih _ hes, expectedNewsItem]

theorem parseGoogleNews_eq (T : CaseTable) (now : Int) (data : ResponseData)
    (htyped : ∀ e ∈ (data.articles.getD []).take 10, e.Typed) :
    parseGoogleNews T now data
      = ((data.articles.getD []).take 10).filterMap (expectedNewsItem T now) := by
  cases hd : data.articles with
  | none => simp [parseGoogleNews, hd, pure, Except.pure]
  | some l =>
    cases l with
    | nil => simp [parseGoogleNews, hd, pure, Except.pure]
    | cons a as =>
      rw [hd] at htyped
      simp only [Option.getD_some] at htyped ⊢
      simp only [parseGoogleNews, hd]
      rw [parseGoogleNewsLoop_ok T now _ [] htyped]
      simp

theorem parseHackerNewsLoop_ok (T : CaseTable) (hits : List Hit) (items : List TrendItem)
    (hwf : ∀ h ∈ hits, (∃ t, h.title = .str t) ∧ h.points ≠ none) :
    parseHackerNewsLoop T hits items = .ok (items ++ hits.filterMap (expectedForumItem T)) := by
  induction hits generalizing items with
  | nil => simp [parseHackerNewsLoop, pure, Except.pure]
  | cons h hs ih =>
    obtain ⟨⟨t, ht⟩, hp⟩ := hwf h (List.mem_cons_self _ _)
    have hhs : ∀ x ∈ hs, (∃ t, x.title = .str t) ∧ x.points ≠ none :=
      fun x hx => hwf x (List.mem_cons_of_mem _ hx)
    cases hpts : h.points with
    | none => exact absurd hpts hp
    | some p =>
      by_cases hrel : isAIRelated T t = true
      · simp [parseHackerNewsLoop, ht, hrel, ih _ hhs, expectedForumItem, hpts, jsAdd,
          jsDivConst]
      · simp [parseHackerNewsLoop, ht, hrel, ih _ hhs, expectedForumItem, hpts]

theorem parseHackerNews_eq (T : CaseTable) (data : ResponseData)
    (hwf : ∀ h ∈ (data.hits.getD []).take 10, (∃ t, h.title = .str t) ∧ h.points ≠ none) :
    parseHackerNews T data = ((data.hits.getD []).take 10).filterMap (expectedForumItem T) := by
  cases hd : data.hits with
  | none => simp [parseHackerNews, hd, pure, Except.pure]
  | some l =>
    rw [hd] at hwf
    simp only [Option.getD_some] at hwf ⊢
    simp only [parseHackerNews, hd]
    rw [parseHackerNewsLoop_ok T _ [] hwf]
    simp

/-- C14: for every case table and every news payload whose first 10 elements of
`articles` are objects with a title that is a string or is missing or empty,
`parseGoogleNews` returns, in payload order, exactly one item for each of the first 10
articles whose title passes `isAIRelated` and none for any other article; each item has the
article's title, its link or the empty string, and its heuristic score; so the result has
at most 10 items. -/
theorem parseGoogleNews_filtered (T : CaseTable) (now : Int) (data : ResponseData)
    (htyped : ∀ e ∈ (data.articles.getD []).take 10, e.Typed) :
    parseGoogleNews T now data
        = ((data.articles.getD []).take 10).filterMap (expectedNewsItem T now)
    ∧ (parseGoogleNews T now data).length ≤ 10 := by
  rw [parseGoogleNews_eq T now data htyped]
  refine ⟨rfl, ?_⟩
  refine le_trans (List.length_filterMap_le _ _) ?_
  rw [List.length_take]
  exact Nat.min_le_left _ _

/-- The statement of C14 at a payload of twelve articles: of the first ten, two pass the
filter and give one item each, in payload order; the eleventh passes it as well and gives
none. -/
theorem parseGoogleNews_filtered_witness :
    (parseGoogleNews unicodeCase 1000 twelveArticles
        = ((twelveArticles.articles.getD []).take 10).filterMap
            (expectedNewsItem unicodeCase 1000)
      ∧ (parseGoogleNews unicodeCase 1000 twelveArticles).length ≤ 10)
    ∧ ((twelveArticles.articles.getD []).take 10).filterMap (expectedNewsItem unicodeCase 1000)
        = [{ title := utf16 "OpenAI Announces Breakthrough GPT-5 Model",
             url := "https://example.org/a", source := "NewsAPI", timestamp := some 5,
             score := some 7 },
           { title := utf16 "New AI chips", url := "", source := "NewsAPI",
             timestamp := some 1000, score := some 2 }] :=
  ⟨parseGoogleNews_filtered unicodeCase 1000 twelveArticles (by decide),
    by
      have h1 : isAIRelated unicodeCase (utf16 "OpenAI Announces Breakthrough GPT-5 Model")
          = true := by decide
      have h2 : calculateRelevanceScore unicodeCase
          (utf16 "OpenAI Announces Breakthrough GPT-5 Model") = 7 := by decide
      have h3 : isAIRelated unicodeCase (utf16 "New AI chips") = true := by decide
      have h4 : calculateRelevanceScore unicodeCase (utf16 "New AI chips") = 2 := by decide
      have h5 : isAIRelated unicodeCase (utf16 "Weather report") = false := by decide
      simp [twelveArticles, weatherArticle, expectedNewsItem, h1, h2, h3, h4, h5, orDefault,
        isAIRelated_empty]⟩

/-- C15: for a forum payload whose hits all have a string title and numeric points,
`parseHackerNews` returns, in payload order, exactly the items of those of the first 10
hits whose title passes `isAIRelated`, each scored `calculateRelevanceScore(title)` plus
`points / 10`. -/
theorem parseHackerNews_filtered (T : CaseTable) (data : ResponseData)
    (hwf : ∀ h ∈ data.hits.getD [], (∃ t, h.title = .str t) ∧ h.points ≠ none) :
    parseHackerNews T data = ((data.hits.getD []).take 10).filterMap (expectedForumItem T) :=
  parseHackerNews_eq T data (fun h hh => hwf h (List.mem_of_mem_take hh))

/-- The statement of C15 at the forum payload of the round-trip scenario. -/
theorem parseHackerNews_filtered_witness :
    parseHackerNews unicodeCase (roundTripForum none "1" (some 500))
      = (((roundTripForum none "1" (some 500)).hits.getD []).take 10).filterMap
          (expectedForumItem unicodeCase) :=
  parseHackerNews_filtered unicodeCase (roundTripForum none "1" (some 500)) (by
    intro h hh
    simp only [roundTripForum, Option.getD_some, List.mem_singleton] at hh
    rw [hh]
    simp)

/-! ## Titles -/

theorem parseGoogleNewsLoop_titles (T : CaseTable) (now : Int)
    (articles : List ArticleEntry) (items out : List TrendItem)
    (hitems : ∀ x ∈ items, x.title ≠ [] ∧ isAIRelated T x.title = true)
    (hout : parseGoogleNewsLoop T now articles items = .ok out) :
    ∀ x ∈ out, x.title ≠ [] ∧ isAIRelated T x.title = true := by
  induction articles generalizing items with
  | nil =>
    simp only [parseGoogleNewsLoop, pure, Except.pure, Except.ok.injEq] at hout
    rw [← hout]
    exact hitems
  | cons e es ih =>
    cases e with
    | null => simp [parseGoogleNewsLoop, throw, throwThe, MonadExceptOf.throw] at hout
    | object a =>
      cases ht : a.title with
      | truthy => simp [parseGoogleNewsLoop, ht, throw, throwThe, MonadExceptOf.throw] at hout
      | falsy =>
        simp only [parseGoogleNewsLoop, ht] at hout
        exact ih items hitems hout
      | str title =>
        simp only [parseGoogleNewsLoop, ht] at hout
        by_cases hc : title ≠ [] ∧ isAIRelated T title = true
        · rw [if_pos hc] at hout
          refine ih _ ?_ hout
          intro x hx
          rcases List.mem_append.1 hx with h | h
          · exact hitems x h
          · rw [List.mem_singleton.1 h]
            exact hc
        · rw [if_neg hc] at hout
          exact ih items hitems hout

theorem parseGoogleNews_titles (T : CaseTable) (now : Int) (data : ResponseData) :
    ∀ x ∈ parseGoogleNews T now data, x.title ≠ [] ∧ isAIRelated T x.title = true := by
  intro x hx
  simp only [parseGoogleNews] at hx
  cases hd : data.articles with
  | none => simp [hd, pure, Except.pure] at hx
  | some l =>
    cases l with
    | nil => simp [hd, pure, Except.pure] at hx
    | cons a as =>
      simp only [hd] at hx
      generalize hb : parseGoogleNewsLoop T now (List.take 10 (a :: as)) [] = r at hx
      cases r with
      | error e => exact absurd hx (List.not_mem_nil _)
      | ok out => exact parseGoogleNewsLoop_titles T now _ [] out (by simp) hb x hx

theorem parseHackerNewsLoop_titles (T : CaseTable) (hits : List Hit)
    (items out : List TrendItem)
    (hitems : ∀ x ∈ items, x.title ≠ [] ∧ isAIRelated T x.title = true)
    (hout : parseHackerNewsLoop T hits items = .ok out) :
    ∀ x ∈ out, x.title ≠ [] ∧ isAIRelated T x.title = true := by
  induction hits generalizing items with
  | nil =>
    simp only [parseHackerNewsLoop, pure, Except.pure, Except.ok.injEq] at hout
    rw [← hout]
    exact hitems
  | cons h hs ih =>
    cases ht : h.title with
    | truthy => simp [parseHackerNewsLoop, ht, throw, throwThe, MonadExceptOf.throw] at hout
    | falsy => simp [parseHackerNewsLoop, ht, throw, throwThe, MonadExceptOf.throw] at hout
    | str title =>
      simp only [parseHackerNewsLoop, ht] at hout
      by_cases hc : isAIRelated T title = true
      · rw [if_pos hc] at hout
        refine ih _ ?_ hout
        intro x hx
        rcases List.mem_append.1 hx with h2 | h2
        · exact hitems x h2
        · rw [List.mem_singleton.1 h2]
          refine ⟨?_, hc⟩
          intro he
          simp only at he
          rw [he, isAIRelated_empty] at hc
          exact Bool.false_ne_true hc
      · rw [if_neg hc] at hout
        exact ih items hitems hout

theorem parseHackerNews_titles (T : CaseTable) (data : ResponseData) :
    ∀ x ∈ parseHackerNews T data, x.title ≠ [] ∧ isAIRelated T x.title = true := by
  intro x hx
  simp only [parseHackerNews] at hx
  cases hd : data.hits with
  | none => simp [hd, pure, Except.pure] at hx
  | some l =>
    simp only [hd] at hx
    generalize hb : parseHackerNewsLoop T (List.take 10 l) [] = r at hx
    cases r with
    | error e => exact absurd hx (List.not_mem_nil _)
    | ok out => exact parseHackerNewsLoop_titles T _ [] out (by simp) hb x hx

theorem mapRescore_titles (T : CaseTable) (scores : ParsedReply)
    (trends out : List TrendItem)
    (h : mapRescore T scores trends = .ok out) :
    out.map (fun t => t.title) = trends.map (fun t => t.title) := by
  induction trends generalizing out with
  | nil =>
    simp only [mapRescore, pure, Except.pure, Except.ok.injEq] at h
    rw [← h]
  | cons t ts ih =>
    simp only [mapRescore] at h
    cases hr : rescore T scores t with
    | error e => simp [hr, throw, throwThe, MonadExceptOf.throw] at h
    | ok t2 =>
      cases hm : mapRescore T scores ts with
      | error e => simp [hr, hm, throw, throwThe, MonadExceptOf.throw] at h
      | ok ts2 =>
        simp only [hr, hm, pure, Except.pure, Except.ok.injEq] at h
        rw [← h]
        have ht2 : t2.title = t.title := by
          cases scores with
          | other => simp [rescore, throw, throwThe, MonadExceptOf.throw] at hr
          | array entries =>
            simp only [rescore] at hr
            cases hf : findMatch T (slice0 (toLowerCase T t.title) 20) entries with
            | error e => simp [hf, throw, throwThe, MonadExceptOf.throw] at hr
            | ok m =>
              cases m with
              | none =>
                simp only [hf, pure, Except.pure, Except.ok.injEq] at hr
                rw [← hr]
              | some s =>
                simp only [hf, pure, Except.pure, Except.ok.injEq] at hr
                rw [← hr]
        simp [ht2, ih ts2 hm]

theorem scoreWithGemini_titles (T : CaseTable)
    (jsonParse : JSString → Option ParsedReply) (call : RankingCall)
    (trends : List TrendItem) :
    (scoreWithGemini T jsonParse call trends).map (fun t => t.title)
      = trends.map (fun t => t.title) := by
  simp only [scoreWithGemini]
  cases hb : scoreWithGeminiBody T jsonParse call trends with
  | error e => rfl
  | ok ranked =>
    cases call with
    | throws => simp [scoreWithGeminiBody, throw, throwThe, MonadExceptOf.throw] at hb
    | text t =>
      simp only [scoreWithGeminiBody] at hb
      exact mapRescore_titles T _ trends ranked hb

end TrendingFetcher

theorem retryLoop_ok {ε α : Type} (fn : Nat → Except ε α) (maxRetries baseDelay : Nat)
    (left attempt : Nat) (lastError : Option ε) (slept : List Nat) (v : α)
    (h : (retryLoop fn maxRetries baseDelay left attempt lastError slept).result = .ok v) :
    ∃ k, fn k = .ok v := by
  induction left generalizing attempt lastError slept with
  | zero => simp [retryLoop] at h
  | succ n ih =>
    simp only [retryLoop] at h
    cases hf : fn attempt with
    | ok w =>
      simp only [hf, Except.ok.injEq] at h
      exact ⟨attempt, by rw [hf, h]⟩
    | error e =>
      simp only [hf] at h
      by_cases hm : attempt = maxRetries
      · simp [hm] at h
      · simp only [hm, if_false] at h
        exact ih _ _ _ h

namespace TrendingFetcher

theorem collectTrends_mem (P : TrendItem → Prop)
    (net : String → Nat → Except Unit ResponseData) (now : Int) (srcs : List Source)
    (acc : List TrendItem) (hacc : ∀ x ∈ acc, P x)
    (hsrc : ∀ s ∈ srcs, ∀ data, ∀ x ∈ s.parser now data, P x) :
    ∀ x ∈ collectTrends net now srcs acc, P x := by
  induction srcs generalizing acc with
  | nil => simpa [collectTrends] using hacc
  | cons s rest ih =>
    have hrest : ∀ t ∈ rest, ∀ data, ∀ x ∈ t.parser now data, P x :=
      fun t ht => hsrc t (List.mem_cons_of_mem _ ht)
    simp only [collectTrends]
    cases hr : (retryWrapper (fetchFromSource net now s) 3 1000).result with
    | error e => exact ih acc hacc hrest
    | ok trends =>
      refine ih _ ?_ hrest
      obtain ⟨k, hk⟩ := retryLoop_ok _ _ _ _ _ _ _ _ hr
      intro x hx
      rcases List.mem_append.1 hx with h | h
      · exact hacc x h
      · simp only [fetchFromSource] at hk
        cases hn : net s.url k with
        | error e => simp [hn, throw, throwThe, MonadExceptOf.throw] at hk
        | ok data =>
          simp only [hn, pure, Except.pure, Except.ok.injEq] at hk
          rw [← hk] at h
          exact hsrc s (List.mem_cons_self _ _) data x h

/-- C16: every item of `parseGoogleNews` and of `parseHackerNews` has a non-empty title
that passes `isAIRelated`; the ranking step leaves the list of titles as it is, sorting only
rearranges the items and the final `slice` only drops items; so every item returned by
`fetchTrends` has a non-empty title that passes `isAIRelated`. -/
theorem fetchTrends_titles (T : CaseTable) :
    (∀ (now : Int) (data : ResponseData), ∀ x ∈ parseGoogleNews T now data,
      x.title ≠ [] ∧ isAIRelated T x.title = true)
    ∧ (∀ data : ResponseData, ∀ x ∈ parseHackerNews T data,
      x.title ≠ [] ∧ isAIRelated T x.title = true)
    ∧ (∀ (jsonParse : JSString → Option ParsedReply) (call : RankingCall)
        (trends : List TrendItem),
      (scoreWithGemini T jsonParse call trends).map (fun t => t.title)
        = trends.map (fun t => t.title))
    ∧ (∀ trends : List TrendItem, (arraySort compareFn trends).Perm trends)
    ∧ (∀ trends : List TrendItem, (trends.take 5).Sublist trends)
    ∧ (∀ (net : String → Nat → Except Unit ResponseData) (now : Int)
        (jsonParse : JSString → Option ParsedReply) (call : RankingCall),
      ∀ x ∈ fetchTrends T net now jsonParse call, x.title ≠ [] ∧ isAIRelated T x.title = true) := by
  refine ⟨parseGoogleNews_titles T, parseHackerNews_titles T, scoreWithGemini_titles T,
    arraySort_perm compareFn, fun trends => List.take_sublist 5 trends, ?_⟩
  intro net now jsonParse call x hx
  simp only [fetchTrends] at hx
  have h1 : x ∈ scoreWithGemini T jsonParse call (collectTrends net now (sources T) []) :=
    (arraySort_perm compareFn _).mem_iff.1 (List.mem_of_mem_take hx)
  have h2 : x.title ∈ (scoreWithGemini T jsonParse call
      (collectTrends net now (sources T) [])).map (fun t => t.title) :=
    List.mem_map_of_mem _ h1
  rw [scoreWithGemini_titles] at h2
  obtain ⟨y, hy, hxy⟩ := List.mem_map.1 h2
  have hP := collectTrends_mem (fun t => t.title ≠ [] ∧ isAIRelated T t.title = true)
    net now (sources T) [] (by simp) (by
      intro s hs data z hz
      simp only [sources, List.mem_cons, List.mem_singleton, List.not_mem_nil, or_false] at hs
      rcases hs with rfl | rfl
      · exact parseGoogleNews_titles T now data z hz
      · exact parseHackerNews_titles T data z hz) y hy
  simp only at hxy hP
  rw [← hxy]
  exact hP

end TrendingFetcher

/-! ## Hashtags -/

theorem takeWhile_append_stop {α : Type} (p : α → Bool) (a b : List α) (x : α)
    (hx : p x = false) : (a ++ x :: b).takeWhile p = a.takeWhile p := by
  induction a with
  | nil => simp [List.takeWhile_cons, hx]
  | cons c cs ih =>
    by_cases hc : p c = true
    · simp [List.takeWhile_cons, hc, ih]
    · simp [List.takeWhile_cons, hc]

theorem startsHashtag_append_stop (c x : Nat) (a b : List Nat)
    (hx : isWordChar x = false) : startsHashtag c (a ++ x :: b) = startsHashtag c a := by
  cases a with
  | nil => simp [startsHashtag, hx]
  | cons d ds => rfl

theorem startsHashtag_append (c d : Nat) (a b : List Nat) :
    startsHashtag c (d :: a ++ b) = startsHashtag c (d :: a) := rfl

/-- The matches of a text split at a character that is not a word character. -/
theorem hashtagMatchesL_append_stop (a b : List Nat) (x : Nat)
    (hx : isWordChar x = false) :
    hashtagMatchesL (a ++ x :: b) = hashtagMatchesL a ++ hashtagMatchesL (x :: b) := by
  induction a with
  | nil => simp [hashtagMatchesL]
  | cons c cs ih =>
    rw [List.cons_append, hashtagMatchesL, hashtagMatchesL, startsHashtag_append_stop c x cs b hx,
      takeWhile_append_stop isWordChar cs b x hx, ih]
    by_cases h : startsHashtag c cs = true
    · simp [h]
    · simp [h]

theorem hashtagMatchesL_space (b : List Nat) :
    hashtagMatchesL (32 :: b) = hashtagMatchesL b := by
  have h : startsHashtag 32 b = false := by simp [startsHashtag]
  simp [hashtagMatchesL, h]

theorem isWordChar_ne_hash (c : Nat) (h : isWordChar c = true) : c ≠ 35 := by
  intro hc
  rw [hc] at h
  exact absurd h (by decide)

theorem hashtagMatchesL_word (w : List Nat) (hw : ∀ c ∈ w, isWordChar c = true) :
    hashtagMatchesL w = [] := by
  induction w with
  | nil => rfl
  | cons c cs ih =>
    have hc : c ≠ 35 := isWordChar_ne_hash c (hw c (List.mem_cons_self _ _))
    have hs : startsHashtag c cs = false := by simp [startsHashtag, hc]
    simp [hashtagMatchesL, hs, ih (fun d hd => hw d (List.mem_cons_of_mem _ hd))]

theorem hashtagMatchesL_tag (t : List Nat) (ht : IsHashtag t) : hashtagMatchesL t = [t] := by
  obtain ⟨w, rfl, hne, hw⟩ := ht
  cases w with
  | nil => exact absurd rfl hne
  | cons d ds =>
    have hd : isWordChar d = true := hw d (List.mem_cons_self _ _)
    have hs : startsHashtag 35 (d :: ds) = true := by simp [startsHashtag, hd]
    have ht : (d :: ds).takeWhile isWordChar = d :: ds :=
      List.takeWhile_eq_self_iff.2 hw
    rw [hashtagMatchesL, if_pos hs, ht, hashtagMatchesL_word _ hw]

theorem hashtagMatchesL_isHashtag (l : List Nat) : ∀ t ∈ hashtagMatchesL l, IsHashtag t := by
  induction l with
  | nil => simp [hashtagMatchesL]
  | cons c cs ih =>
    intro t ht
    by_cases hs : startsHashtag c cs = true
    · rw [hashtagMatchesL, if_pos hs] at ht
      rcases List.mem_cons.1 ht with rfl | h
      · refine ⟨cs.takeWhile isWordChar, rfl, ?_, fun d hd => List.mem_takeWhile_imp hd⟩
        cases cs with
        | nil => simp [startsHashtag] at hs
        | cons d ds =>
          have hd : isWordChar d = true := by
            simp only [startsHashtag, Bool.and_eq_true] at hs
            exact hs.2
          simp [List.takeWhile_cons, hd]
      · exact ih t h
    · rw [hashtagMatchesL, if_neg hs] at ht
      exact ih t ht

theorem startsHashtag_of_headNotWord (c : Nat) (l : List Nat) (h : HeadNotWord l) :
    startsHashtag c l = false := by
  cases l with
  | nil => simp [startsHashtag]
  | cons d ds =>
    have hd : isWordChar d = false := h
    simp [startsHashtag, hd]

theorem headNotWord_of_not_starts (cs : List Nat) (h : startsHashtag 35 cs = false) :
    HeadNotWord cs := by
  cases cs with
  | nil => trivial
  | cons d ds =>
    simp only [startsHashtag, beq_self_eq_true, Bool.true_and] at h
    exact h

/-- What `replace(/#\w+/g, "")` leaves holds no match, and it does not begin with a word
character when the scan was inside a match or the input did not begin with one. -/
theorem removeHashtagsL_spec (l : List Nat) :
    ∀ b : Bool, hashtagMatchesL (removeHashtagsL b l) = []
      ∧ (b = true ∨ HeadNotWord l → HeadNotWord (removeHashtagsL b l)) := by
  induction l with
  | nil => intro b; exact ⟨rfl, fun _ => trivial⟩
  | cons c cs ih =>
    intro b
    by_cases h1 : (b && isWordChar c) = true
    · have : removeHashtagsL b (c :: cs) = removeHashtagsL true cs := by
        simp [removeHashtagsL, h1]
      rw [this]
      exact ⟨(ih true).1, fun _ => (ih true).2 (Or.inl rfl)⟩
    · by_cases h2 : startsHashtag c cs = true
      · have : removeHashtagsL b (c :: cs) = removeHashtagsL true cs := by
          simp [removeHashtagsL, h1, h2]
        rw [this]
        exact ⟨(ih true).1, fun _ => (ih true).2 (Or.inl rfl)⟩
      · have : removeHashtagsL b (c :: cs) = c :: removeHashtagsL false cs := by
          simp [removeHashtagsL, h1, h2]
        rw [this]
        constructor
        · have hs : startsHashtag c (removeHashtagsL false cs) = false := by
            by_cases hc : c = 35
            · subst hc
              have hcs : HeadNotWord cs :=
                headNotWord_of_not_starts cs (by simpa using h2)
              exact startsHashtag_of_headNotWord _ _ ((ih false).2 (Or.inr hcs))
            · simp [startsHashtag, hc]
          simp [hashtagMatchesL, hs, (ih false).1]
        · intro hb
          rcases hb with hb | hb
          · subst hb
            simpa using h1
          · exact hb

theorem hashtagMatchesL_nil_of_append (a b : List Nat)
    (h : hashtagMatchesL (a ++ b) = []) : hashtagMatchesL a = [] ∧ hashtagMatchesL b = [] := by
  induction a with
  | nil => exact ⟨rfl, h⟩
  | cons c cs ih =>
    rw [List.cons_append, hashtagMatchesL] at h
    by_cases hs : startsHashtag c (cs ++ b) = true
    · rw [if_pos hs] at h
      exact absurd h (List.cons_ne_nil _ _)
    · rw [if_neg hs] at h
      have hs2 : startsHashtag c cs = false := by
        cases cs with
        | nil => simp [startsHashtag]
        | cons d ds => simpa using hs
      obtain ⟨h1, h2⟩ := ih h
      exact ⟨by simp [hashtagMatchesL, hs2, h1], h2⟩

theorem hashtagMatchesL_trim (s : JSString) (h : hashtagMatchesL s = []) :
    hashtagMatchesL (trim s) = [] := by
  simp only [trim]
  have h1 : hashtagMatchesL (s.dropWhile isJSWhitespace) = [] := by
    have := List.takeWhile_append_dropWhile isJSWhitespace s
    rw [← this] at h
    exact (hashtagMatchesL_nil_of_append _ _ h).2
  generalize s.dropWhile isJSWhitespace = m at h1
  have h2 : m = (m.reverse.dropWhile isJSWhitespace).reverse
      ++ (m.reverse.takeWhile isJSWhitespace).reverse := by
    rw [← List.reverse_append, List.takeWhile_append_dropWhile, List.reverse_reverse]
  rw [h2] at h1
  exact (hashtagMatchesL_nil_of_append _ _ h1).1

/-- Cutting a text and appending "..." does not add a match. -/
theorem hashtagMatchesL_cut (p rest : List Nat) :
    (hashtagMatchesL (p ++ [46, 46, 46])).length ≤ (hashtagMatchesL (p ++ rest)).length := by
  induction p with
  | nil =>
    have : hashtagMatchesL [46, 46, 46] = [] := by decide
    simp [this]
  | cons c cs ih =>
    have hs : startsHashtag c (cs ++ [46, 46, 46]) = true →
        startsHashtag c (cs ++ rest) = true := by
      cases cs with
      | nil => simp [startsHashtag]; intro _ h; exact absurd h (by decide)
      | cons d ds => exact id
    rw [List.cons_append, List.cons_append, hashtagMatchesL, hashtagMatchesL]
    by_cases h1 : startsHashtag c (cs ++ [46, 46, 46]) = true
    · simp [h1, hs h1, ih]
    · by_cases h2 : startsHashtag c (cs ++ rest) = true
      · simp [h1, h2]
        omega
      · simp [h1, h2, ih]

theorem hashtagMatchesL_take_cut (l : List Nat) (n : Nat) :
    (hashtagMatchesL (l.take n ++ [46, 46, 46])).length ≤ (hashtagMatchesL l).length := by
  have h := hashtagMatchesL_cut (l.take n) (l.drop n)
  rwa [List.take_append_drop] at h

theorem mem_of_mem_uniq {α : Type} [DecidableEq α] (l : List α) :
    ∀ x ∈ uniq l, x ∈ l := by
  induction l with
  | nil => simp [uniq]
  | cons a as ih =>
    intro x hx
    rcases List.mem_cons.1 hx with rfl | h
    · exact List.mem_cons_self _ _
    · exact List.mem_cons_of_mem _ (ih x (List.mem_filter.1 h).1)

theorem uniq_nodup {α : Type} [DecidableEq α] (l : List α) : (uniq l).Nodup := by
  induction l with
  | nil => exact List.nodup_nil
  | cons a as ih =>
    refine List.nodup_cons.2 ⟨?_, ih.filter _⟩
    intro h
    simpa using (List.mem_filter.1 h).2

theorem mem_uniq {α : Type} [DecidableEq α] (l : List α) : ∀ x ∈ l, x ∈ uniq l := by
  induction l with
  | nil => simp
  | cons a as ih =>
    intro x hx
    by_cases hxa : x = a
    · rw [hxa]; exact List.mem_cons_self _ _
    · rcases List.mem_cons.1 hx with h | h
      · exact absurd h hxa
      · exact List.mem_cons_of_mem _ (List.mem_filter.2 ⟨ih x h, by simpa using hxa⟩)

theorem hashtagMatchesL_joinUnits (tags : List JSString) (h : ∀ t ∈ tags, IsHashtag t) :
    hashtagMatchesL (joinUnits [32] tags) = tags := by
  induction tags with
  | nil => rfl
  | cons x rest ih =>
    have hx : IsHashtag x := h x (List.mem_cons_self _ _)
    have hrest : ∀ t ∈ rest, IsHashtag t := fun t ht => h t (List.mem_cons_of_mem _ ht)
    cases rest with
    | nil => simp [joinUnits, hashtagMatchesL_tag _ hx]
    | cons y ys =>
      have hd : joinUnits [32] (x :: y :: ys) = x ++ 32 :: joinUnits [32] (y :: ys) := by
        simp [joinUnits]
      rw [hd, hashtagMatchesL_append_stop _ _ 32 (by decide), hashtagMatchesL_space,
        hashtagMatchesL_tag _ hx, ih hrest]
      rfl

theorem hashtagMatches_isHashtag (text : JSString) :
    ∀ t ∈ hashtagMatches text, IsHashtag t :=
  hashtagMatchesL_isHashtag text

theorem length_codePoints_le (s : JSString) : (codePoints s).length ≤ s.length := by
  generalize hn : s.length = n
  induction n using Nat.strong_induction_on generalizing s with
  | _ n ih =>
    match s, hn with
    | [], _ => simp [codePoints]
    | [u], hn => simp [codePoints, ← hn]
    | u :: v :: rest, hn =>
      simp only [List.length_cons] at hn
      by_cases hp : (isHighSurrogate u && isLowSurrogate v) = true
      · have h1 := ih rest.length (by omega) rest rfl
        simp only [codePoints, hp, if_true, List.length_cons]
        omega
      · have h1 := ih (v :: rest).length (by simp only [List.length_cons]; omega)
          (v :: rest) rfl
        simp only [codePoints, hp, List.length_cons] at h1 ⊢
        simp only [Bool.false_eq_true, if_false, List.length_cons]
        omega

namespace TwitterPublisher

theorem optimizeTweet_eq (tweetText : JSString) :
    optimizeTweet tweetText = truncateTweet (rebuiltTweet tweetText) 280 := rfl

/-- The matches of the rebuilt text are the first five distinct matches of the input. -/
theorem hashtagMatches_rebuiltTweet (tweetText : JSString) :
    hashtagMatches (rebuiltTweet tweetText) = (uniq (hashtagMatches tweetText)).take 5 := by
  have hcontent : hashtagMatchesL (trim (removeHashtags tweetText)) = [] :=
    hashtagMatchesL_trim _ (removeHashtagsL_spec tweetText false).1
  have htags : ∀ t ∈ (uniq (hashtagMatches tweetText)).take 5, IsHashtag t :=
    fun t ht => hashtagMatches_isHashtag tweetText t
      (mem_of_mem_uniq _ t (List.mem_of_mem_take ht))
  have hsp : utf16 " " = [32] := rfl
  have hd : rebuiltTweet tweetText
      = trim (removeHashtags tweetText)
        ++ 32 :: joinUnits [32] ((uniq (hashtagMatches tweetText)).take 5) := by
    simp [rebuiltTweet, hsp]
  rw [hashtagMatches, hd, hashtagMatchesL_append_stop _ _ 32 (by decide),
    hashtagMatchesL_space, hcontent, hashtagMatchesL_joinUnits _ htags, List.nil_append]

theorem truncateTweet_cases (text : JSString) (maxLength : Nat) :
    (text.length ≤ maxLength ∧ truncateTweet text maxLength = text)
    ∨ (maxLength < text.length
      ∧ ∃ n, n ≤ maxLength - 3
        ∧ truncateTweet text maxLength = text.take n ++ [46, 46, 46]) := by
  have hdots : utf16 "..." = [46, 46, 46] := rfl
  by_cases h : text.length ≤ maxLength
  · exact Or.inl ⟨h, by simp [truncateTweet, h]⟩
  · right
    refine ⟨Nat.lt_of_not_le h, ?_⟩
    by_cases h2 : 10 * lastIndexOf (slice0 text (maxLength - 3)) 32 > 8 * (maxLength : Int)
    · refine ⟨min (lastIndexOf (slice0 text (maxLength - 3)) 32).toNat (maxLength - 3),
        Nat.min_le_right _ _, ?_⟩
      simp only [truncateTweet, h, if_false, h2, if_true, hdots]
      simp [slice0, List.take_take]
    · refine ⟨maxLength - 3, le_refl _, ?_⟩
      simp only [truncateTweet, h, if_false, h2, hdots]
      simp [slice0]

/-- C11: with the length of a text counted in UTF-16 code units, as `text.length` counts
it, `optimizeTweet` never returns more than 280 characters (so neither more than 280 code
points); `truncateTweet` with the limit 280 returns a text of at most 280 characters
unchanged, and turns a longer one into a text of at most 280 characters that ends in
"...". -/
theorem optimizeTweet_length :
    (∀ tweetText : JSString,
      (optimizeTweet tweetText).length ≤ 280
      ∧ (codePoints (optimizeTweet tweetText)).length ≤ 280)
    ∧ (∀ text : JSString, text.length ≤ 280 → truncateTweet text 280 = text)
    ∧ (∀ text : JSString, 280 < text.length →
        (truncateTweet text 280).length ≤ 280
        ∧ utf16 "..." <:+ truncateTweet text 280) := by
  have hlong : ∀ text : JSString, 280 < text.length →
      (truncateTweet text 280).length ≤ 280
      ∧ utf16 "..." <:+ truncateTweet text 280 := by
    intro text hlen
    rcases truncateTweet_cases text 280 with ⟨h, _⟩ | ⟨_, n, hn, heq⟩
    · omega
    · rw [heq]
      refine ⟨?_, ⟨text.take n, rfl⟩⟩
      rw [List.length_append, List.length_take]
      simp only [List.length_cons, List.length_nil]
      omega
  have hshort : ∀ text : JSString, text.length ≤ 280 → truncateTweet text 280 = text := by
    intro text hlen
    simp [truncateTweet, hlen]
  have hunits : ∀ tweetText : JSString, (optimizeTweet tweetText).length ≤ 280 := by
    intro tweetText
    rw [optimizeTweet_eq]
    by_cases h : (rebuiltTweet tweetText).length ≤ 280
    · rw [hshort _ h]
      exact h
    · exact (hlong _ (Nat.lt_of_not_le h)).1
  exact ⟨fun tweetText =>
    ⟨hunits tweetText, le_trans (length_codePoints_le _) (hunits tweetText)⟩, hshort, hlong⟩

set_option maxRecDepth 100000 in
/-- The statement of C11 at a tweet of 141 emoji: it has 141 code points and 282 code
units, so it is cut, to 280 code units ending in "...". -/
theorem optimizeTweet_length_witness :
    (codePoints emojiTweet).length = 141
    ∧ 280 < emojiTweet.length
    ∧ (truncateTweet emojiTweet 280).length ≤ 280
    ∧ utf16 "..." <:+ truncateTweet emojiTweet 280 :=
  ⟨by decide, by decide, optimizeTweet_length.2.2 emojiTweet (by decide)⟩

/-- C12 (as amended): the output of `optimizeTweet` holds at most 5 hashtags; when the
rebuilt text has at most 280 UTF-16 code units, so that nothing is cut, its hashtags are
the first 5 distinct hashtags of the input in order of first occurrence, none of them
twice. -/
theorem optimizeTweet_hashtags (tweetText : JSString) :
    (hashtagMatches (optimizeTweet tweetText)).length ≤ 5
    ∧ ((rebuiltTweet tweetText).length ≤ 280 →
        hashtagMatches (optimizeTweet tweetText) = (uniq (hashtagMatches tweetText)).take 5
        ∧ (hashtagMatches (optimizeTweet tweetText)).Nodup) := by
  have hfive : ((uniq (hashtagMatches tweetText)).take 5).length ≤ 5 := by
    rw [List.length_take]
    exact Nat.min_le_left _ _
  constructor
  · rw [optimizeTweet_eq]
    rcases truncateTweet_cases (rebuiltTweet tweetText) 280 with ⟨_, heq⟩ | ⟨_, n, _, heq⟩
    · rw [heq, hashtagMatches_rebuiltTweet]
      exact hfive
    · rw [heq, hashtagMatches]
      refine le_trans (hashtagMatchesL_take_cut _ n) ?_
      have h := hashtagMatches_rebuiltTweet tweetText
      rw [hashtagMatches] at h
      rw [h]
      exact hfive
  · intro hlen
    have heq : optimizeTweet tweetText = rebuiltTweet tweetText := by
      rw [optimizeTweet_eq]
      simp [truncateTweet, hlen]
    rw [heq, hashtagMatches_rebuiltTweet]
    exact ⟨rfl, (uniq_nodup _).sublist (List.take_sublist _ _)⟩

/-- The amended C12 at a short tweet with a repeated hashtag. -/
theorem optimizeTweet_hashtags_witness :
    (rebuiltTweet (utf16 "Big #AI news #ai #AI today")).length ≤ 280
    ∧ hashtagMatches (optimizeTweet (utf16 "Big #AI news #ai #AI today"))
        = (uniq (hashtagMatches (utf16 "Big #AI news #ai #AI today"))).take 5
    ∧ (hashtagMatches (optimizeTweet (utf16 "Big #AI news #ai #AI today"))).Nodup :=
  ⟨by decide, (optimizeTweet_hashtags (utf16 "Big #AI news #ai #AI today")).2 (by decide)⟩

set_option maxRecDepth 1000000 in
/-- C12 (counterexample): a tweet of 290 letters and the hashtag "#ai" comes back without
any hashtag; and of two distinct long hashtags the second is cut down to the first, so
that the output holds the same hashtag twice. -/
theorem optimizeTweet_cut_hashtags :
    (uniq (hashtagMatches longTweet)).take 5 = [utf16 "#ai"]
    ∧ hashtagMatches (optimizeTweet longTweet) = []
    ∧ (uniq (hashtagMatches twoTagTweet)).take 5 = [tag136, tag200]
    ∧ hashtagMatches (optimizeTweet twoTagTweet) = [tag136, tag136] := by
  refine ⟨?_, ?_, ?_, ?_⟩ <;> decide

end TwitterPublisher

namespace AIContentAgent

/-- C17 (the code at the failing inputs): with the generative credential present, a run
without the blog token fails in the constructor with "HASHNODE_API_TOKEN is required", and
a run without the microblog credentials fails in the constructor as well, whatever the
collaborators would do; the skip of `runAutomation` is reached only when the variable
`TWITTER_API_KEY`, which no constructor reads, is the absent one. -/
theorem run_missing_credential (trendingTopics : List TrendItem)
    (generated tweeted posted : Except String String) :
    run envWithoutBlogToken trendingTopics generated tweeted posted
        = .error "HASHNODE_API_TOKEN is required"
    ∧ run envWithoutMicroblog trendingTopics generated tweeted posted
        = .error ("Missing required environment variables: "
            ++ "API_KEY, API_KEY_SECRET, ACCESS_TOKEN, ACCESS_TOKEN_SECRET")
    ∧ run envWithoutTwitterApiKey [exampleNewsItem] (.ok "content") tweeted (.ok "post")
        = .ok { twitter := none, hashnode := some "post" } := by
  have h1 : construct envWithoutBlogToken = .error "HASHNODE_API_TOKEN is required" := by
    rfl
  have h2 : construct envWithoutMicroblog
      = .error ("Missing required environment variables: "
          ++ "API_KEY, API_KEY_SECRET, ACCESS_TOKEN, ACCESS_TOKEN_SECRET") := by
    rfl
  have h3 : construct envWithoutTwitterApiKey = .ok () := by rfl
  refine ⟨?_, ?_, ?_⟩
  · simp [run, h1, throw, throwThe, MonadExceptOf.throw]
  · simp only [run, h2]
    rfl
  · have h4 : validateEnvVars envWithoutTwitterApiKey ["GEMINI_API_KEY"] = .ok () := by
      rfl
    have h5 : envTruthy envWithoutTwitterApiKey "TWITTER_API_KEY" = false := by decide
    have h6 : envTruthy envWithoutTwitterApiKey "HASHNODE_API_TOKEN" = true := by decide
    simp [run, h3, runAutomation, h4, h5, h6, pure, Except.pure]

end AIContentAgent
